import Mathlib

/-!
# Verification of the yang_gnmi_reports aggregation core

A shallow embedding of the result-aggregation and compliance-tree builder of
`src/generate_html.py` (functions `generate_skeleton_dict`,
`summarize_test_report`, `update_skeleton_dict`, `build_hierarchy`, the
summary-merge loop of `process_directory`) and of `extract_xpath` from
`src/generate_test_result1.py`, together with theorems settling the frozen
claims about that code.

Python dicts are modelled as insertion-ordered association lists
(`List (String × α)`); `dict.__setitem__` keeps the position of an existing
key and appends a fresh one, `dict.pop` removes the first (unique) binding,
and `dict.update` folds `__setitem__` over the incoming bindings.  JSON
scalars that matter to the claims are modelled by `JVal` (integers and
strings); Python truthiness on those is `JVal.truthy`.  Inputs on which the
Python code raises an uncaught exception (for example a test outcome whose
operation type is absent from the schema, which makes line 554 of
`generate_html.py` raise `KeyError`) are modelled as no-ops and are never
used by any theorem below.
-/

namespace YangGnmi

/-- JSON scalar values relevant to the claims: integers and strings. -/
inductive JVal where
  | i : Int → JVal
  | s : String → JVal
deriving DecidableEq, Repr

/-- Python truthiness of a `JVal`: `0` and `""` are falsy. -/
def JVal.truthy : JVal → Bool
  | .i n => n ≠ 0
  | .s v => v ≠ ""

/-- `v if v else "NA"` for the numeric counter slots
(`generate_html.py` lines 587-591). -/
def jOrNA (v : JVal) : JVal := if v.truthy then v else .s "NA"

/-- `x if x else "NA"` for the log-string slots (`generate_html.py` lines 584-586). -/
def orNA (x : String) : String := if x = "" then "NA" else x

/-! ## Association lists standing for Python dicts -/

/-- Lookup of a key in an insertion-ordered association list (`d[k]` / `d.get(k)`):
the value of the first binding of `k`. -/
def alookup : List (String × α) → String → Option α
  | [], _ => none
  | p :: rest, k => if p.1 = k then some p.2 else alookup rest k

/-- `d[k] = v`: replace the first binding of `k` in place, else append. -/
def aset (l : List (String × α)) (k : String) (v : α) : List (String × α) :=
  match l with
  | [] => [(k, v)]
  | p :: rest => if p.1 = k then (k, v) :: rest else p :: aset rest k v

/-- `d.pop(k)`: remove the first binding of `k` (no-op when absent). -/
def aremove (l : List (String × α)) (k : String) : List (String × α) :=
  match l with
  | [] => []
  | p :: rest => if p.1 = k then rest else p :: aremove rest k

/-- `d.update(new)`: fold `d[k] = v` over the incoming bindings. -/
def aupdateMany (l new : List (String × α)) : List (String × α) :=
  new.foldl (fun acc p => aset acc p.1 p.2) l

theorem alookup_aset (l : List (String × α)) (k q : String) (v : α) :
    alookup (aset l k v) q = if q = k then some v else alookup l q := by
  induction l with
  | nil =>
    by_cases h : q = k
    · subst h; simp [aset, alookup]
    · have h' : ¬ k = q := fun hh => h hh.symm
      simp [aset, alookup, h, h']
  | cons p rest ih =>
    by_cases hk : p.1 = k
    · subst hk
      by_cases hq : q = p.1
      · subst hq; simp [aset, alookup]
      · have h' : ¬ p.1 = q := fun hh => hq hh.symm
        simp [aset, alookup, hq, h']
    · by_cases hq : p.1 = q
      · subst hq
        have h' : ¬ p.1 = k := hk
        simp [aset, alookup, hk, h']
      · simp [aset, alookup, hk, hq, ih]

theorem alookup_aremove_ne (l : List (String × α)) (k q : String) (h : q ≠ k) :
    alookup (aremove l k) q = alookup l q := by
  induction l with
  | nil => rfl
  | cons p rest ih =>
    by_cases hk : p.1 = k
    · rw [show aremove (p :: rest) k = rest by simp [aremove, hk]]
      have h' : ¬ p.1 = q := fun hq => h (hq.symm.trans hk)
      simp [alookup, h']
    · rw [show aremove (p :: rest) k = p :: aremove rest k by simp [aremove, hk]]
      by_cases hq : p.1 = q
      · simp [alookup, hq]
      · simp [alookup, hq, ih]

/-- Modify the record stored at key `p` in place (`d[p]` mutation). -/
def amodify : List (String × α) → String → (α → α) → List (String × α)
  | [], _, _ => []
  | kv :: rest, p, f =>
    (if kv.1 = p then (kv.1, f kv.2) else kv) :: amodify rest p f

theorem alookup_amodify (l : List (String × α)) (p q : String) (f : α → α) :
    alookup (amodify l p f) q =
      if q = p then (alookup l q).map f else alookup l q := by
  induction l with
  | nil => by_cases h : q = p <;> simp [amodify, alookup, h]
  | cons kv rest ih =>
    simp only [amodify]
    by_cases hp : kv.1 = p
    · subst hp
      by_cases hq : kv.1 = q
      · subst hq; simp [alookup]
      · have h' : ¬ q = kv.1 := fun hh => hq hh.symm
        simp [alookup, hq, h', ih]
    · by_cases hq : kv.1 = q
      · subst hq
        simp [alookup, hp, fun hh : kv.1 = p => hp hh]
      · simp [alookup, hp, hq, ih]

/-- Generic preservation of a predicate along `List.foldl`. -/
theorem foldl_preserve {α β : Type _} (P : α → Prop) (f : α → β → α)
    (h : ∀ a b, P a → P (f a b)) :
    ∀ (l : List β) (a : α), P a → P (l.foldl f a) := by
  intro l
  induction l with
  | nil => intro a ha; simpa using ha
  | cons b rest ih => intro a ha; exact ih _ (h a b ha)

/-! ## Character-level string helpers

`re.sub(r'\[.*?\]', '', s)` removes every non-overlapping leftmost-shortest
`[...]` span; `re.sub(r'_\d+$', '', s)` removes one trailing `_<digits>`
suffix; `s.split("<-")` / `s.split("->")` split at every non-overlapping
occurrence of the two-character delimiter.  These are reimplemented over
`List Char`. -/

/-- Is there a `]` anywhere in the list? -/
def hasRB : List Char → Bool
  | [] => false
  | ']' :: _ => true
  | _ :: rest => hasRB rest

/-- Worker for `stripBrackets`: the flag is true while inside a `[...]` span
being removed (everything up to and including the next `]` is dropped). -/
def stripBracketsGo : List Char → Bool → List Char
  | [], _ => []
  | c :: rest, true =>
    if c = ']' then stripBracketsGo rest false else stripBracketsGo rest true
  | c :: rest, false =>
    if c = '[' ∧ hasRB rest then stripBracketsGo rest true
    else c :: stripBracketsGo rest false

/-- `re.sub(r'\[.*?\]', '', s)` on the character list: each `[` that has a
later `]` is dropped together with everything up to that (first) `]`; a `[`
with no later `]` is kept, since the regex cannot match there. -/
def stripBrackets (l : List Char) : List Char := stripBracketsGo l false

/-- String-level wrapper for `stripBrackets`, the model of
`xpath_lookup` (`generate_html.py` line 350) and of the bracket removal in
`extract_xpath` (`generate_test_result1.py` line 15). -/
def stripBracketsS (s : String) : String := String.mk (stripBrackets s.data)

/-- `re.sub(r'_\d+$', '', s)`: drop one trailing `_<digits>` run
(`generate_html.py` lines 507 and 558). -/
def stripNumSuffix (s : String) : String :=
  let rev := s.data.reverse
  let digits := rev.takeWhile (·.isDigit)
  let rest := rev.dropWhile (·.isDigit)
  if digits ≠ [] ∧ rest.head? = some '_' then
    String.mk (rest.tail.reverse)
  else s

/-- `s.split("<-")` on the character list: split at every non-overlapping
leftmost occurrence of `<-`. -/
def splitLe : List Char → List (List Char)
  | [] => [[]]
  | [c] => [[c]]
  | c :: d :: rest =>
    if c = '<' ∧ d = '-' then [] :: splitLe rest
    else
      match splitLe (d :: rest) with
      | [] => [[c]]
      | p :: ps => (c :: p) :: ps

/-- `s.split("->")` on the character list. -/
def splitArrow : List Char → List (List Char)
  | [] => [[]]
  | [c] => [[c]]
  | c :: d :: rest =>
    if c = '-' ∧ d = '>' then [] :: splitArrow rest
    else
      match splitArrow (d :: rest) with
      | [] => [[c]]
      | p :: ps => (c :: p) :: ps

/-- `"<-" in s` on the character list. -/
def hasLe : List Char → Bool
  | [] => false
  | [_] => false
  | c :: d :: rest => if c = '<' ∧ d = '-' then true else hasLe (d :: rest)

/-- `"->" in s` on the character list. -/
def hasArrow : List Char → Bool
  | [] => false
  | [_] => false
  | c :: d :: rest => if c = '-' ∧ d = '>' then true else hasArrow (d :: rest)

/-- Index of the first occurrence of `->`, when one exists. -/
def firstArrowIdx : List Char → Option Nat
  | [] => none
  | [_] => none
  | c :: d :: rest =>
    if c = '-' ∧ d = '>' then some 0
    else (firstArrowIdx (d :: rest)).map (· + 1)

/-- `Char.isWhitespace`-based model of Python `str.strip()`. -/
def trimChars (l : List Char) : List Char :=
  ((l.dropWhile Char.isWhitespace).reverse.dropWhile Char.isWhitespace).reverse

/-- Substring occurrence test (Python `pat in s` for non-empty `pat`). -/
def hasSubList (pat : List Char) : List Char → Bool
  | [] => pat.isPrefixOf []
  | l@(_ :: rest) => pat.isPrefixOf l || hasSubList pat rest

/-- The characters before the first occurrence of `pat`
(Python `s.split(pat)[0]`: the whole list when `pat` does not occur). -/
def beforeFirst (pat : List Char) : List Char → List Char
  | [] => []
  | l@(c :: rest) => if pat.isPrefixOf l then [] else c :: beforeFirst pat rest

/-- `s.split("/")` on the character list. -/
def splitSlash : List Char → List (List Char)
  | [] => [[]]
  | '/' :: rest => [] :: splitSlash rest
  | c :: rest =>
    match splitSlash rest with
    | [] => [[c]]
    | p :: ps => (c :: p) :: ps

/-- Python substring membership `pat in s`. -/
def containsSub (s pat : String) : Bool := hasSubList pat.data s.data

/-- `s.lower()`. -/
def lowerStr (s : String) : String := String.mk (s.data.map Char.toLower)

/-! ## Validation schema (the YAML file)

`gnmi_operations.<op>.type.<typeKey>.{current_status,
operation_validations_sequence}`, `gnmi_operation_validations.<groupKey>.
{current_status, validations}`, `validations.<valKey>.{current_status,
description, name}`.  Missing `current_status` defaults to `"not-supported"`,
missing sub-structures default to empty, exactly as the chained `.get`
calls with defaults do in `generate_skeleton_dict`. -/

/-- `validations.<valKey>` node of the YAML schema. -/
structure ValDef where
  description : String
  name : String
  current_status : String
deriving DecidableEq, Repr

/-- `gnmi_operation_validations.<groupKey>` node. -/
structure VGroup where
  current_status : String
  validations : List String
deriving DecidableEq, Repr

/-- `gnmi_operations.<op>.type.<typeKey>` node. -/
structure TypeDef where
  current_status : String
  operation_validations_sequence : List String
deriving DecidableEq, Repr

/-- The whole validation YAML document. -/
structure Schema where
  gnmi_operations : List (String × List (String × TypeDef))
  gnmi_operation_validations : List (String × VGroup)
  validations : List (String × ValDef)
deriving DecidableEq, Repr

/-- Default for a missing group: `{}` with `current_status` defaulting to
`"not-supported"`. -/
def defaultVGroup : VGroup := ⟨"not-supported", []⟩

/-- Default for a missing validation definition. -/
def defaultValDef : ValDef := ⟨"", "", "not-supported"⟩

/-! ## Result records

A `TypeInstanceRecord` is the per-(path, type-instance) dict produced by
`initialize_type_structure` and mutated in place afterwards.  A
`ComplianceEntry` is a Python dict `{val_key: {}, 'description': …,
'key': …}` and is modelled as an association list over `EVal` so that the
membership test `comp_key in compliance_dict` and the in-place assignment
`compliance_dict[comp_key] = comp_value` of `update_skeleton_dict` can be
translated literally. -/

/-- A value slot of a compliance-entry dict: the initial empty dict `{}`,
a folded-in verdict, a metadata string, or Python `None`. -/
inductive EVal where
  | em : EVal
  | j : JVal → EVal
  | str : String → EVal
  | null : EVal
deriving DecidableEq, Repr

/-- One compliance entry (a Python dict). -/
abbrev CEntry := List (String × EVal)

/-- The `'key'` metadata value: `type_values` is `None` when the outcome had
no type entries (modelled as `Option String`). -/
def keyEVal : Option String → EVal
  | some s => .str s
  | none => .null

/-- One type-instance record (`initialize_type_structure` plus the keys
`full_path` and `new_log` that `update_skeleton_dict` adds dynamically;
before they are added they hold the inert defaults below). -/
structure TypeRec where
  parent_key : String
  status : String
  message : List String
  log : String
  gnmi_log : String
  test_log : String
  Compliance : List CEntry
  encoding : List String
  total_validations : JVal
  ignored_validations : JVal
  failed_validations : JVal
  passed_validations : JVal
  coverage : JVal
  full_path : String
  new_log : Option (String × String)
deriving DecidableEq, Repr

/-- `initialize_type_structure` (`generate_html.py` lines 65-89). -/
def initTypeStructure (validations : String) : TypeRec :=
  { parent_key := validations
    status := "NA"
    message := []
    log := "NA"
    gnmi_log := "NA"
    test_log := "NA"
    Compliance := []
    encoding := []
    total_validations := .s "NA"
    ignored_validations := .s "NA"
    failed_validations := .s "NA"
    passed_validations := .s "NA"
    coverage := .s "NA"
    full_path := ""
    new_log := none }

/-- Truthiness of the `validations_in_json` argument: Python treats `None`
and the empty set as falsy (`if validations_in_json and …`). -/
def vijTruthy : Option (List String) → Bool
  | none => false
  | some l => l ≠ []

/-- The skeleton compliance entry appended at
`generate_html.py` lines 139-143. -/
def mkSkelEntry (val_key : String) (description : String)
    (type_values : Option String) : CEntry :=
  [(val_key, .em), ("description", .str description), ("key", keyEVal type_values)]

/-- The eligible compliance entries for one type: walk the declared
validation-group sequence, keeping groups, then validation definitions, that
are marked supported, and filtering by `validations_in_json` when that
argument is truthy (`generate_skeleton_dict` inner loops, lines 110-144). -/
def complianceFor (sch : Schema) (type_values : Option String)
    (vij : Option (List String)) (seq : List String) : List CEntry :=
  seq.flatMap (fun validation_key =>
    let vdata := (alookup sch.gnmi_operation_validations validation_key).getD defaultVGroup
    if lowerStr vdata.current_status = "supported" then
      vdata.validations.filterMap (fun val_key =>
        let vd := (alookup sch.validations val_key).getD defaultValDef
        if lowerStr vd.current_status ≠ "supported" then none
        else if vijTruthy vij && (match vij with
              | some l => decide (val_key ∉ l)
              | none => false) then none
        else some (mkSkelEntry val_key vd.description type_values))
    else [])

/-- The `if encoding_value:` append of `generate_skeleton_dict`
(lines 145-148). -/
def skelEnc (encoding_value : Option String) (tr : TypeRec) : TypeRec :=
  match encoding_value with
  | some e => if e ≠ "" then { tr with encoding := tr.encoding ++ [e] } else tr
  | none => tr

/-- One iteration of the `for key, value in types.items()` loop of
`generate_skeleton_dict` (`generate_html.py` lines 92-158). -/
def skelStep (sch : Schema) (validations : String) (type_keys : List String)
    (encoding_value : Option String) (type_values : Option String)
    (validations_in_json : Option (List String))
    (skeleton_dict : List (String × TypeRec)) (kv : String × TypeDef) :
    List (String × TypeRec) :=
  let key := kv.1
  let value := kv.2
  if key ∈ type_keys then
    if lowerStr value.current_status ≠ "supported" then skeleton_dict
    else
      let skeleton_dict :=
        if (alookup skeleton_dict key).isNone then
          aset skeleton_dict key (initTypeStructure validations)
        else skeleton_dict
      let rec0 := (alookup skeleton_dict key).getD (initTypeStructure validations)
      let rec1 := { rec0 with
        Compliance := rec0.Compliance ++
          complianceFor sch type_values validations_in_json
            value.operation_validations_sequence }
      aset skeleton_dict key (skelEnc encoding_value rec1)
  else
    if value.current_status = "not-supported" then skeleton_dict
    else aset skeleton_dict key (initTypeStructure validations)

/-- `generate_skeleton_dict` (`generate_html.py` lines 30-160): builds the
skeleton record map for one operation.  Types listed in `type_keys` get a
full skeleton with compliance entries when their `current_status` lowercases
to `"supported"`; other declared types get an empty skeleton unless their
`current_status` is exactly `"not-supported"`. -/
def generate_skeleton_dict (sch : Schema) (validations : String)
    (type_keys : List String) (encoding_value : Option String)
    (type_values : Option String) (validations_in_json : Option (List String)) :
    List (String × TypeRec) :=
  ((alookup sch.gnmi_operations validations).getD []).foldl
    (skelStep sch validations type_keys encoding_value type_values
      validations_in_json) []

/-! ## `update_skeleton_dict` -/

/-- One verdict map `{'Status_Code': 'PASS', …}` inside a validation entry. -/
abbrev VerdictMap := List (String × JVal)

/-- One element of `type_data[type_key]`: a dict mapping a validation name to
its verdict map. -/
abbrev VBlock := List (String × VerdictMap)

instance : DecidableEq VerdictMap := inferInstance

instance : DecidableEq VBlock := inferInstance

instance : DecidableEq (List VBlock) := inferInstance

/-- The `validations[<opKey>]` payload: `{type: {typeKey: [VBlock…]},
encoding}`. -/
structure OpData where
  type : List (String × List VBlock)
  encoding : Option String
deriving DecidableEq, Repr

/-- Fold one `(comp_key, comp_value)` verdict into the compliance list:
overwrite in the first entry whose dict contains `comp_key`, else append a
new entry built from the schema metadata (`generate_html.py` lines 595-614;
the appended dict literal `{comp_key: comp_value, 'description': …,
'key': …}` is built left to right, later duplicate keys overwriting). -/
def applyVerdict (main_validations : List (String × ValDef))
    (cl : List CEntry) (comp_key : String) (comp_value : JVal) : List CEntry :=
  match cl with
  | [] =>
    let vinfo := (alookup main_validations comp_key).getD defaultValDef
    [aset (aset (aset [] comp_key (.j comp_value))
        "description" (.str vinfo.description)) "key" (.str vinfo.name)]
  | e :: rest =>
    if (alookup e comp_key).isSome then aset e comp_key (.j comp_value) :: rest
    else e :: applyVerdict main_validations rest comp_key comp_value

/-- The per-outcome metadata written into a type record whenever a verdict
map is truthy (`generate_html.py` lines 583-591). -/
structure MetaVals where
  log_string : String
  gnmi_log : String
  test_log : String
  total_validations : JVal
  ignored_validations : JVal
  failed_validations : JVal
  passed_validations : JVal
  coverage : JVal
deriving DecidableEq, Repr

/-- Write the metadata fields (each one `value if value else "NA"`). -/
def setMeta (m : MetaVals) (tr : TypeRec) : TypeRec :=
  { tr with
    message := []
    log := orNA m.log_string
    gnmi_log := orNA m.gnmi_log
    test_log := orNA m.test_log
    total_validations := jOrNA m.total_validations
    ignored_validations := jOrNA m.ignored_validations
    failed_validations := jOrNA m.failed_validations
    passed_validations := jOrNA m.passed_validations
    coverage := jOrNA m.coverage }

/-- Sequential fold of a whole verdict map into the compliance list. -/
def applyVerdicts (main_validations : List (String × ValDef))
    (cl : List CEntry) (vr : VerdictMap) : List CEntry :=
  vr.foldl (fun cl q => applyVerdict main_validations cl q.1 q.2) cl

/-- Process one `(validation_name, validation_results)` pair of the inner
loop of `update_skeleton_dict`: truthy (non-empty) verdict maps trigger the
metadata write, then every verdict is folded into the compliance list. -/
def foldOneValidation (main_validations : List (String × ValDef)) (m : MetaVals)
    (tr : TypeRec) (p : String × VerdictMap) : TypeRec :=
  let tr := if p.2 ≠ [] then setMeta m tr else tr
  { tr with Compliance := applyVerdicts main_validations tr.Compliance p.2 }

/-- The two nested `for` loops over `validation_list` (lines 577-614): a
sequential fold over the flattened `(validation_name, validation_results)`
pairs. -/
def foldValidationList (main_validations : List (String × ValDef)) (m : MetaVals)
    (tr : TypeRec) (vl : List VBlock) : TypeRec :=
  (vl.flatMap id).foldl (foldOneValidation main_validations m) tr

/-- The encoding append of `update_skeleton_dict` (lines 572-574):
`if encoding_value and {"value": encoding_value} not in …["encoding"]`. -/
def addEncoding (enc : Option String) (tr : TypeRec) : TypeRec :=
  match enc with
  | some e => if e ≠ "" ∧ e ∉ tr.encoding
      then { tr with encoding := tr.encoding ++ [e] } else tr
  | none => tr

/-- `update_skeleton_dict` (`generate_html.py` lines 531-616).  Type-keyed
skeleton dict in, updated dict out.  The `full_path` / `new_log` / `status`
writes happen before the `original_type_key not in types_dict` early return,
exactly as in the source.  A missing `type_key` (a `KeyError` in Python) is
modelled as a no-op and never exercised. -/
def update_skeleton_dict (operations : List (String × OpData))
    (skeleton_dict : List (String × TypeRec)) (m : MetaVals) (status : String)
    (validations : String) (type_key : String)
    (main_validations : List (String × ValDef)) (test_name : String)
    (new_log : Option (String × String)) (json_result : Option String) :
    List (String × TypeRec) :=
  match alookup skeleton_dict type_key with
  | none => skeleton_dict
  | some rec0 =>
    let rec1 := { rec0 with
      full_path := test_name
      new_log := new_log
      status := json_result.getD status }
    let original_type_key := stripNumSuffix type_key
    let opd := (alookup operations validations).getD ⟨[], none⟩
    match alookup opd.type original_type_key with
    | none => aset skeleton_dict type_key rec1
    | some validation_list =>
      let rec2 := addEncoding opd.encoding rec1
      aset skeleton_dict type_key
        (foldValidationList main_validations m rec2 validation_list)

/-! ## Result documents and the summarizer -/

/-- A `{status, message, log}` sub-dict of a path record (`deviation` and
`platform`). -/
structure SBlock where
  status : String
  message : String
  log : String
deriving DecidableEq, Repr

/-- The `status` sub-dict of a path record (its `message` is a list). -/
structure SBlockL where
  status : String
  message : List String
  log : String
deriving DecidableEq, Repr

/-- The per-path record of `xpath_status`.  The fixed metadata keys are
fields; the dynamically added type-instance keys live in `types`; the
`multiple_data` sub-dict added by path finalization is the last field
(empty list = absent). -/
structure PathRecord where
  test_name : String
  deviation : SBlock
  platform : SBlock
  status : SBlockL
  skeleton : Bool
  types : List (String × TypeRec)
  multiple_data : List (String × TypeRec)
deriving DecidableEq, Repr

/-- The seed record of `generate_html.py` lines 363-370. -/
def initPathRecord (extracted_test_name : String) : PathRecord :=
  { test_name := extracted_test_name
    deviation := ⟨"No", "", ""⟩
    platform := ⟨"NN", "", ""⟩
    status := ⟨"NA", [], ""⟩
    skeleton := true
    types := []
    multiple_data := [] }

/-- One element of a test outcome's `results` list.  A field absent from the
JSON is represented by the `.get` default the code supplies (`""` for the
strings and counters, `None` for `result`, `{}`—the empty list—for
`validations`). -/
structure LogEntry where
  log : String
  gnmi_log : String
  test_log : String
  total_validations : JVal
  passed_validations : JVal
  failed_validations : JVal
  ignored_validations : JVal
  coverage : JVal
  result : Option String
  validations : List (String × OpData)
deriving DecidableEq, Repr

/-- One element of the document's `results` list. -/
structure TestOutcome where
  test_name : String
  success : Bool
  results : List LogEntry
deriving DecidableEq, Repr

/-- The document-wide summary counters (`generate_html.py` lines 372-379).
Missing keys default to `0`. -/
structure SummaryRec where
  tests_total_validations : Int
  tests_passed_validations : Int
  tests_failed_validations : Int
  tests_ignored_validations : Int
  tests_pass : Int
  tests_total : Int
  tests_fail : Int
deriving DecidableEq, Repr

/-- The parsed result document (only the parts the summarizer reads). -/
structure ResultDoc where
  counters : SummaryRec
  platform_support : List (String × String)
  deviations : List String
  results : List TestOutcome
deriving DecidableEq, Repr

/-- The summarizer's running state: `xpath_status` with the reserved
`"summary"` bucket held separately, plus `path_type_counters`. -/
structure SState where
  paths : List (String × PathRecord)
  summary : Option SummaryRec
  counters : List ((String × String) × Nat)
deriving DecidableEq, Repr

/-- The empty state at the top of `summarize_test_report`. -/
def initSState : SState := ⟨[], none, []⟩

/-- Counter lookup keyed by `(xpath, type_key)` (a `defaultdict(int)`). -/
def clookup (l : List ((String × String) × Nat)) (k : String × String) : Nat :=
  ((l.find? (fun p => p.1 = k)).map (·.2)).getD 0

/-- Counter store. -/
def cset (l : List ((String × String) × Nat)) (k : String × String) (v : Nat) :
    List ((String × String) × Nat) :=
  match l with
  | [] => [(k, v)]
  | p :: rest => if p.1 = k then (k, v) :: rest else p :: cset rest k v

/-- `re.sub(r'.*<-\s*(.*?)\s*->\s*.*', r'\1', test_name)`
(`generate_html.py` line 352).  The greedy leading `.*` picks the **last**
`<-` that still has a `->` after it; the lazy group then ends at the
**first** `->` after that point, and the two `\s*` trim the segment.  When
the pattern does not match, `re.sub` returns the name unchanged.  (Names
containing newline characters, where `.` stops matching, are outside the
model and never used.) -/
def regexSubPath (test_name : String) : String :=
  let cs := test_name.data
  let candidates := (List.range cs.length).filter
    (fun i => cs.drop i |> fun t =>
      t.take 2 = ['<', '-'] && hasArrow (t.drop 2))
  match candidates.getLast? with
  | none => test_name
  | some i =>
    let rest := cs.drop (i + 2)
    match firstArrowIdx rest with
    | some k => String.mk (trimChars (rest.take k))
    | none => test_name

/-- Resource-path extraction of the summarizer: the regex substitution
followed by bracket stripping (`generate_html.py` lines 350-353). -/
def xpathFromName (test_name : String) : String :=
  stripBracketsS (regexSubPath test_name)

/-- The `/dependencies` suffix removal (`generate_html.py` line 360):
`xpath_matches.split('/dependencies')[0] if 'dependencies' in xpath_matches
else xpath_matches`. -/
def stripDependencies (s : String) : String :=
  if containsSub s "dependencies" then String.mk (beforeFirst "/dependencies".data s.data) else s

/-- The body of the `for type_key in type_keys` loop of
`summarize_test_report` (`generate_html.py` lines 417-473): bump the
`(path, type)` occurrence counter, derive the unique instance key (`TYPE`
for the first occurrence, `TYPE_<count>` afterwards), build-and-rename a
fresh skeleton when the unique key is new, then fold the outcome in with
`update_skeleton_dict` and clear the `skeleton` placeholder flag.  In the
fresh-skeleton branch the Python code merges the skeleton into the path
record both before and after `update_skeleton_dict`; because the merged
sub-dicts are aliased, the net effect is merging the updated skeleton, which
is what this function does. -/
def processType (sch : Schema) (logIdx : List (String × (String × String)))
    (operation : List (String × OpData)) (validations : String) (opd : OpData)
    (type_values : Option String) (curKeys : List String) (m : MetaVals)
    (coarse : String) (test_name : String) (json_result : Option String)
    (xpath : String) (st : SState) (type_key : String) : SState :=
  let cnt := clookup st.counters (xpath, type_key) + 1
  let counters := cset st.counters (xpath, type_key) cnt
  let unique_type_key := if cnt = 1 then type_key else type_key ++ "_" ++ toString cnt
  let new_log := alookup logIdx test_name
  let paths := amodify st.paths xpath (fun rec =>
    let types' :=
      match alookup rec.types unique_type_key with
      | none =>
        let sk0 := generate_skeleton_dict sch validations [type_key]
          opd.encoding type_values (some curKeys)
        let sk1 := match alookup sk0 type_key with
          | some v => aset (aremove sk0 type_key) unique_type_key v
          | none => sk0
        let sk2 := update_skeleton_dict operation sk1 m coarse validations
          unique_type_key sch.validations test_name new_log json_result
        aupdateMany rec.types sk2
      | some _ =>
        update_skeleton_dict operation rec.types m coarse validations
          unique_type_key sch.validations test_name new_log json_result
    { rec with types := types', skeleton := false })
  { st with paths := paths, counters := counters }

/-- The status / deviation / platform tail of the per-outcome loop
(`generate_html.py` lines 475-494), including the sticky guard
`if xpath_status[xpath]["status"]["status"] != "FAIL"`. -/
def stageStatus (doc : ResultDoc) (xpath : String) (success : Bool)
    (st : SState) : SState :=
  let status0 := if success then "PASS" else "FAIL"
  let status1 := if xpath ∈ doc.deviations then status0 ++ "(D)" else status0
  let platform := (alookup doc.platform_support xpath).getD "NN"
  let status2 := if platform = "NS" ∨ platform = "NA"
    then status1 ++ "(P-" ++ platform ++ ")" else status1
  let paths := amodify st.paths xpath (fun r0 =>
    let r1 := if xpath ∈ doc.deviations then
        { r0 with deviation := { r0.deviation with
            status := "Yes", message := "Deviation Path" } }
      else r0
    let r2 := { r1 with platform := { r1.platform with status := platform } }
    if r2.status.status ≠ "FAIL"
      then { r2 with status := { r2.status with status := status2 } } else r2)
  { st with paths := paths }

/-- First-sight initialization of a path (`generate_html.py` lines 362-380):
seed the path record and (re)write the document-wide `"summary"` bucket. -/
def stageInit (doc : ResultDoc) (xpath : String) (tname : String)
    (st : SState) : SState :=
  if (alookup st.paths xpath).isSome then st
  else { st with
    paths := aset st.paths xpath
      (initPathRecord (String.mk (tname.data.takeWhile (fun c => c ≠ ' '))))
    summary := some doc.counters }

/-- The middle of the per-outcome loop (`generate_html.py` lines 382-473):
extract the last log entry's fields and fold every type key of the
validations block into the path record. -/
def stageTypes (sch : Schema) (logIdx : List (String × (String × String)))
    (xpath : String) (r : TestOutcome) (st : SState) : SState :=
  let le := r.results.getLast?
  let m : MetaVals := {
    log_string := (le.map (·.log)).getD ""
    gnmi_log := (le.map (·.gnmi_log)).getD ""
    test_log := (le.map (·.test_log)).getD ""
    total_validations := (le.map (·.total_validations)).getD (.s "")
    ignored_validations := (le.map (·.ignored_validations)).getD (.s "")
    failed_validations := (le.map (·.failed_validations)).getD (.s "")
    passed_validations := (le.map (·.passed_validations)).getD (.s "")
    coverage := (le.map (·.coverage)).getD (.s "") }
  let operation := (le.map (·.validations)).getD []
  match operation.head? with
  | none => st
  | some op0 =>
    if op0.1 = "" then st
    else
      let validations := op0.1
      let opd := (alookup operation validations).getD ⟨[], none⟩
      let type_keys := (opd.type.map (·.1)).filter (· ≠ "encoding")
      let tvl := (opd.type.filter (fun p => p.1 ≠ "encoding")).map (·.2)
      let type_values : Option String :=
        tvl.head? >>= fun e => e.head? >>= fun b => b.head?.map (·.1)
      let curKeys := type_keys.flatMap (fun tk =>
        ((alookup opd.type tk).getD []).flatMap (fun entry => entry.map (·.1)))
      let json_result := le >>= (·.result)
      let coarse := if r.success then "PASS" else "FAIL"
      type_keys.foldl
        (processType sch logIdx operation validations opd type_values
          curKeys m coarse r.test_name json_result xpath) st

/-- One iteration of `for result in data.get("results", [])`
(`generate_html.py` lines 342-494). -/
def processOutcome (sch : Schema) (logIdx : List (String × (String × String)))
    (doc : ResultDoc) (st : SState) (r : TestOutcome) : SState :=
  let xm := xpathFromName r.test_name
  if xm = "" then st
  else
    let xpath := stripDependencies xm
    stageStatus doc xpath r.success
      (stageTypes sch logIdx xpath r (stageInit doc xpath r.test_name st))

/-- The duplicate-type regrouping applied to one path record after all
outcomes are processed (`generate_html.py` lines 497-526): instance keys are
grouped by their `_<digits>`-stripped base; every base with more than one
instance has its instances popped from the top level into `multiple_data`,
with the first-seen instance re-keyed to the bare base name (a pop followed
by a re-insert, which lands at the end of the dict). -/
def finalizePath (rec : PathRecord) : PathRecord :=
  let type_keys := rec.types.map (·.1)
  let bases := type_keys.foldl (fun acc tk =>
    let b := stripNumSuffix tk
    if b ∈ acc then acc else acc ++ [b]) []
  let groups := bases.map (fun b =>
    (b, type_keys.filter (fun k => stripNumSuffix k = b)))
  let step := fun (dm : List (String × TypeRec) × List (String × TypeRec))
      (g : String × List String) =>
    if g.2.length > 1 then
      let dm2 := g.2.foldl (fun dm2 inst =>
        match alookup dm2.1 inst with
        | some v => (aremove dm2.1 inst, aset dm2.2 inst v)
        | none => dm2) dm
      let mdata := match g.2.head? with
        | some i0 => match alookup dm2.2 i0 with
          | some v => aset (aremove dm2.2 i0) g.1 v
          | none => dm2.2
        | none => dm2.2
      (dm2.1, mdata)
    else dm
  let dm := groups.foldl step (rec.types, [])
  { rec with types := dm.1, multiple_data := dm.2 }

/-- The whole path-finalization pass. -/
def finalizeState (st : SState) : SState :=
  { st with paths := st.paths.map (fun kv => (kv.1, finalizePath kv.2)) }

/-- `summarize_test_report` (`generate_html.py` lines 290-529) restricted to
its aggregation core: fold every test outcome into the state, then regroup
duplicate type instances per path.  `logIdx` is the parsed log dictionary
(`parse_log_file` output), `sch` the loaded validation YAML. -/
def summarize_test_report (sch : Schema)
    (logIdx : List (String × (String × String))) (doc : ResultDoc) : SState :=
  finalizeState (doc.results.foldl (processOutcome sch logIdx doc) initSState)

/-! ## `build_hierarchy` -/

/-- A node's `_data` slot: the `"NA"` marker or a real record. -/
inductive NData (α : Type) where
  | na : NData α
  | val : α → NData α
deriving DecidableEq, Repr

/-- One node of the hierarchy: its `_data` slot and its children, keyed by
the accumulated path (`"system"`, `"system/aaa"`, …) exactly as in the
Python dict-of-dicts. -/
inductive HNode (α : Type) where
  | mk : NData α → List (String × HNode α) → HNode α

/-- The `_data` slot. -/
def HNode.dataOf : HNode α → NData α
  | .mk d _ => d

/-- The children map. -/
def HNode.children : HNode α → List (String × HNode α)
  | .mk _ c => c

/-- Accumulated-path key construction
(`accumulated_path = f"{accumulated_path}/{component}" if accumulated_path
else component`). -/
def joinAcc (acc c : String) : String := if acc = "" then c else acc ++ "/" ++ c

/-- `[comp for comp in s.strip().split("/") if comp]`. -/
def pathComponents (s : String) : List String :=
  ((splitSlash (trimChars s.data)).map String.mk).filter (· ≠ "")

/-- Insertion of one full path into the tree (`build_hierarchy` main loop,
`generate_html.py` lines 766-785): nodes are created with the real value
only when the terminal component creates them; an existing node visited
non-terminally has its `_data` forced to `"NA"`; an existing node visited
terminally is left unchanged. -/
def insertPath (value : α) :
    List String → String → List (String × HNode α) → List (String × HNode α)
  | [], _, t => t
  | c :: rest, acc, t =>
    let key := joinAcc acc c
    match alookup t key with
    | none =>
      let d : NData α := if rest = [] then .val value else .na
      aset t key (HNode.mk d (insertPath value rest key []))
    | some n =>
      let d := if rest = [] then n.dataOf else (.na : NData α)
      aset t key (HNode.mk d (insertPath value rest key n.children))

/-- The `"->"`-key branch (`generate_html.py` lines 759-764): walk to the
node named by the pre-arrow path and overwrite its `_data`; `none` when no
such node exists (the caller then falls through to plain handling).  The
empty-components case (where Python would attach `_data` to the root
container itself) is out of the modelled input space. -/
def setDataAt (value : α) :
    List String → String → List (String × HNode α) → Option (List (String × HNode α))
  | [], _, _ => none
  | [c], acc, t =>
    let key := joinAcc acc c
    match alookup t key with
    | none => none
    | some n => some (aset t key (HNode.mk (.val value) n.children))
  | c :: rest, acc, t =>
    let key := joinAcc acc c
    match alookup t key with
    | none => none
    | some n => (setDataAt value rest key n.children).map
        (fun ch => aset t key (HNode.mk n.dataOf ch))

/-- One iteration of the `for full_path, value in data_obj.items()` loop of
`build_hierarchy`: try the `"->"` branch, else insert the plain path. -/
def buildStep (tree : List (String × HNode α)) (kv : String × α) :
    List (String × HNode α) :=
  let tryArrow : Option (List (String × HNode α)) :=
    if containsSub kv.1 "->" then
      setDataAt kv.2
        (pathComponents (String.mk (trimChars (beforeFirst "->".data kv.1.data))))
        "" tree
    else none
  match tryArrow with
  | some t2 => t2
  | none => insertPath kv.2 (pathComponents kv.1) "" tree

/-- `build_hierarchy` (`generate_html.py` lines 725-787). -/
def build_hierarchy (data_obj : List (String × α)) : List (String × HNode α) :=
  data_obj.foldl buildStep []

/-- Walk the tree to the node for a component list (the shape of `get_node`),
returning the node. -/
def nodeAt (t : List (String × HNode α)) (acc : String) :
    List String → Option (HNode α)
  | [] => none
  | [c] => alookup t (joinAcc acc c)
  | c :: rest =>
    match alookup t (joinAcc acc c) with
    | none => none
    | some n => nodeAt n.children (joinAcc acc c) rest

/-- The `_data` slot of the node reached by a component list. -/
def dataAt (t : List (String × HNode α)) (comps : List String) : Option (NData α) :=
  (nodeAt t "" comps).map HNode.dataOf

/-! ## `extract_xpath` (`generate_test_result1.py` lines 6-15) -/

/-- `re.sub(r'\[.*?\]', '',
test_name.split("<-")[1].split("->")[0].strip())` when both delimiters
occur in the name, otherwise the name unchanged. -/
def extract_xpath (test_name : String) : String :=
  let cs := test_name.data
  if hasLe cs && hasArrow cs then
    let piece1 := (splitLe cs).getD 1 []
    let piece0 := (splitArrow piece1).headD []
    String.mk (stripBrackets (trimChars piece0))
  else test_name

/-! ## The summary merge of `process_directory`
(`generate_html.py` lines 224-233) -/

/-- Python `int(x)` on the modelled JSON scalars: identity on integers,
string parse on strings, `None` (an exception) otherwise. -/
def toIntPy : JVal → Option Int
  | .i n => some n
  | .s v => v.toInt?

/-- Fold one incoming summary dict into the aggregate: per metric,
`aggregated['summary'][metric] = int(aggregated['summary'][metric]) +
int(metric_value)`, with any exception (missing key or failed coercion)
skipping that metric. -/
def mergeSummary (agg incoming : List (String × JVal)) : List (String × JVal) :=
  incoming.foldl (fun acc p =>
    match alookup acc p.1 with
    | none => acc
    | some w =>
      match toIntPy w, toIntPy p.2 with
      | some a, some b => aset acc p.1 (.i (a + b))
      | _, _ => acc) agg

/-- The summary dict a single document produces (`generate_html.py`
lines 372-379), in source order. -/
def mkSummaryAssoc (s : SummaryRec) : List (String × JVal) :=
  [("tests_total_validations", .i s.tests_total_validations),
   ("tests_passed_validations", .i s.tests_passed_validations),
   ("tests_failed_validations", .i s.tests_failed_validations),
   ("tests_ignored_validations", .i s.tests_ignored_validations),
   ("tests_pass", .i s.tests_pass),
   ("tests_total", .i s.tests_total),
   ("tests_fail", .i s.tests_fail)]

/-- Field-wise sum of two summary records. -/
def addSummary (a b : SummaryRec) : SummaryRec :=
  ⟨a.tests_total_validations + b.tests_total_validations,
   a.tests_passed_validations + b.tests_passed_validations,
   a.tests_failed_validations + b.tests_failed_validations,
   a.tests_ignored_validations + b.tests_ignored_validations,
   a.tests_pass + b.tests_pass,
   a.tests_total + b.tests_total,
   a.tests_fail + b.tests_fail⟩

/-- The per-directory summary aggregation of `process_directory`
(lines 225-233): the first document's summary is copied, later ones merged. -/
def aggregateSummaries (l : List (List (String × JVal))) :
    Option (List (String × JVal)) :=
  l.foldl (fun acc s =>
    match acc with
    | none => some s
    | some a => some (mergeSummary a s)) none

/-! ## Lemmas about the compliance fold -/

/-- `comp_key in compliance_dict`. -/
def centryHasKey (e : CEntry) (k : String) : Bool := (alookup e k).isSome

/-- Is there an entry whose dict contains the key? -/
def clHasKey (cl : List CEntry) (k : String) : Bool :=
  cl.any (fun e => centryHasKey e k)

/-- The value at `k` inside the first entry containing `k` — i.e. the verdict
the rendered report would show for validation key `k`. -/
def clVal : List CEntry → String → Option EVal
  | [], _ => none
  | e :: rest, k => if centryHasKey e k then alookup e k else clVal rest k

theorem clVal_applyVerdict_self (mv : List (String × ValDef)) (cl : List CEntry)
    (k : String) (v : JVal) (hd : k ≠ "description") (hk : k ≠ "key") :
    clVal (applyVerdict mv cl k v) k = some (.j v) := by
  induction cl with
  | nil =>
    simp [applyVerdict, clVal, centryHasKey, alookup_aset, hd, hk]
  | cons e rest ih =>
    by_cases h : (alookup e k).isSome
    · simp [applyVerdict, h, clVal, centryHasKey, alookup_aset]
    · simp [applyVerdict, h, clVal, centryHasKey, ih]

theorem clVal_applyVerdict_frame (mv : List (String × ValDef)) (cl : List CEntry)
    (k : String) (v : JVal) (q : String) (hqk : q ≠ k) (hqd : q ≠ "description")
    (hqkey : q ≠ "key") :
    clVal (applyVerdict mv cl k v) q = clVal cl q := by
  induction cl with
  | nil =>
    have hkq : ¬ k = q := fun hh => hqk hh.symm
    simp [applyVerdict, clVal, centryHasKey, alookup_aset, hqk, hqd, hqkey, hkq, alookup]
  | cons e rest ih =>
    by_cases h : (alookup e k).isSome
    · simp [applyVerdict, h, clVal, centryHasKey, alookup_aset, hqk]
    · simp [applyVerdict, h, clVal, centryHasKey, ih]

theorem applyVerdict_length_of_hasKey (mv : List (String × ValDef))
    (cl : List CEntry) (k : String) (v : JVal) (h : clHasKey cl k = true) :
    (applyVerdict mv cl k v).length = cl.length := by
  induction cl with
  | nil => simp [clHasKey] at h
  | cons e rest ih =>
    by_cases he : (alookup e k).isSome
    · simp [applyVerdict, he]
    · have hr : clHasKey rest k = true := by
        simpa [clHasKey, centryHasKey, he] using h
      simp [applyVerdict, he, ih hr]

theorem clHasKey_applyVerdict_mono (mv : List (String × ValDef))
    (cl : List CEntry) (k : String) (v : JVal) (q : String)
    (h : clHasKey cl q = true) :
    clHasKey (applyVerdict mv cl k v) q = true := by
  induction cl with
  | nil => simp [clHasKey] at h
  | cons e rest ih =>
    by_cases he : (alookup e k).isSome
    · by_cases hqk : q = k
      · subst hqk
        simp [applyVerdict, he, clHasKey, centryHasKey, alookup_aset]
      · have : alookup (aset e k (EVal.j v)) q = alookup e q := by
          simp [alookup_aset, hqk]
        simpa [applyVerdict, he, clHasKey, centryHasKey, this] using h
    · rcases (by simpa [clHasKey, centryHasKey] using h :
        (alookup e q).isSome = true ∨ clHasKey rest q = true) with h1 | h1
      · simp [applyVerdict, he, clHasKey, centryHasKey, h1]
      · have h2 := ih h1
        simp only [clHasKey, centryHasKey, List.any_eq_true] at h2 ⊢
        simp only [applyVerdict, he, if_false, Bool.false_eq_true]
        rcases h2 with ⟨x, hx, hxq⟩
        exact ⟨x, by simp [hx], hxq⟩

theorem clVal_applyVerdicts_frame (mv : List (String × ValDef)) (vr : VerdictMap)
    (q : String) (hq : ∀ p ∈ vr, p.1 ≠ q) (hqd : q ≠ "description")
    (hqkey : q ≠ "key") :
    ∀ cl, clVal (applyVerdicts mv cl vr) q = clVal cl q := by
  induction vr with
  | nil => intro cl; rfl
  | cons p rest ih =>
    intro cl
    have h1 : q ≠ p.1 := fun hh => (hq p (by simp)) hh.symm
    calc clVal (applyVerdicts mv (applyVerdict mv cl p.1 p.2) rest) q
        = clVal (applyVerdict mv cl p.1 p.2) q :=
          ih (fun p' hp' => hq p' (by simp [hp'])) _
      _ = clVal cl q := clVal_applyVerdict_frame mv cl p.1 p.2 q h1 hqd hqkey

theorem clVal_applyVerdicts_mem (mv : List (String × ValDef)) (vr : VerdictMap)
    (hnodup : (vr.map (·.1)).Nodup)
    (hres : ∀ p ∈ vr, p.1 ≠ "description" ∧ p.1 ≠ "key")
    (k : String) (v : JVal) (hkv : (k, v) ∈ vr) :
    ∀ cl, clVal (applyVerdicts mv cl vr) k = some (.j v) := by
  induction vr with
  | nil => cases hkv
  | cons p rest ih =>
    intro cl
    rcases List.mem_cons.mp hkv with heq | hmem
    · subst heq
      have hnotin : ∀ p' ∈ rest, p'.1 ≠ k := by
        intro p' hp' hkk
        have : k ∈ rest.map (·.1) := by
          simpa [hkk] using List.mem_map_of_mem (·.1) hp'
        exact (List.nodup_cons.mp hnodup).1 this
      calc clVal (applyVerdicts mv (applyVerdict mv cl k v) rest) k
          = clVal (applyVerdict mv cl k v) k :=
            clVal_applyVerdicts_frame mv rest k hnotin
              (hres (k, v) (by simp)).1 (hres (k, v) (by simp)).2 _
        _ = some (.j v) :=
            clVal_applyVerdict_self mv cl k v (hres (k, v) (by simp)).1
              (hres (k, v) (by simp)).2
    · exact ih (List.nodup_cons.mp hnodup).2
        (fun p' hp' => hres p' (by simp [hp'])) hmem _

theorem applyVerdicts_length (mv : List (String × ValDef)) (vr : VerdictMap) :
    ∀ cl, (∀ p ∈ vr, clHasKey cl p.1 = true) →
      (applyVerdicts mv cl vr).length = cl.length := by
  induction vr with
  | nil => intro cl _; rfl
  | cons p rest ih =>
    intro cl h
    have h1 : clHasKey cl p.1 = true := h p (by simp)
    have hrest : ∀ p' ∈ rest, clHasKey (applyVerdict mv cl p.1 p.2) p'.1 = true :=
      fun p' hp' => clHasKey_applyVerdict_mono mv cl p.1 p.2 p'.1 (h p' (by simp [hp']))
    calc (applyVerdicts mv (applyVerdict mv cl p.1 p.2) rest).length
        = (applyVerdict mv cl p.1 p.2).length := ih _ hrest
      _ = cl.length := applyVerdict_length_of_hasKey mv cl p.1 p.2 h1

theorem foldOneValidation_status (mv : List (String × ValDef)) (m : MetaVals)
    (tr : TypeRec) (p : String × VerdictMap) :
    (foldOneValidation mv m tr p).status = tr.status := by
  by_cases h : p.2 = [] <;> simp [foldOneValidation, setMeta, h]

theorem foldValidationList_status (mv : List (String × ValDef)) (m : MetaVals) :
    ∀ (ps : List (String × VerdictMap)) (tr : TypeRec),
      (ps.foldl (foldOneValidation mv m) tr).status = tr.status := by
  intro ps
  induction ps with
  | nil => intro tr; rfl
  | cons p rest ih =>
    intro tr
    rw [List.foldl_cons, ih, foldOneValidation_status]

/-- The five numeric counter slots of a type record. -/
def counterFields (tr : TypeRec) : JVal × JVal × JVal × JVal × JVal :=
  (tr.total_validations, tr.ignored_validations, tr.failed_validations,
   tr.passed_validations, tr.coverage)

/-- What the metadata write stores into those slots. -/
def counterTargets (m : MetaVals) : JVal × JVal × JVal × JVal × JVal :=
  (jOrNA m.total_validations, jOrNA m.ignored_validations,
   jOrNA m.failed_validations, jOrNA m.passed_validations, jOrNA m.coverage)

theorem counterFields_foldOne (mv : List (String × ValDef)) (m : MetaVals)
    (tr : TypeRec) (p : String × VerdictMap) :
    counterFields (foldOneValidation mv m tr p) =
      if p.2 = [] then counterFields tr else counterTargets m := by
  by_cases h : p.2 = [] <;>
    simp [foldOneValidation, setMeta, counterFields, counterTargets, h]

theorem counterFields_fold_target (mv : List (String × ValDef)) (m : MetaVals) :
    ∀ (ps : List (String × VerdictMap)) (tr : TypeRec),
      counterFields tr = counterTargets m →
      counterFields (ps.foldl (foldOneValidation mv m) tr) = counterTargets m := by
  intro ps
  induction ps with
  | nil => intro tr h; exact h
  | cons p rest ih =>
    intro tr h
    rw [List.foldl_cons]
    apply ih
    rw [counterFields_foldOne]
    by_cases hp : p.2 = [] <;> simp [hp, h]

theorem counterFields_fold (mv : List (String × ValDef)) (m : MetaVals) :
    ∀ (ps : List (String × VerdictMap)) (tr : TypeRec), (∃ p ∈ ps, p.2 ≠ []) →
      counterFields (ps.foldl (foldOneValidation mv m) tr) = counterTargets m := by
  intro ps
  induction ps with
  | nil =>
    rintro tr ⟨p, hp, _⟩
    cases hp
  | cons p rest ih =>
    rintro tr ⟨p', hp', hne⟩
    rw [List.foldl_cons]
    rcases List.mem_cons.mp hp' with rfl | hmem
    · apply counterFields_fold_target
      rw [counterFields_foldOne]
      simp [hne]
    · exact ih _ ⟨p', hmem, hne⟩

theorem foldValidationList_compliance_single (mv : List (String × ValDef))
    (m : MetaVals) (tr : TypeRec) (vn : String) (vr : VerdictMap) :
    (foldValidationList mv m tr [[(vn, vr)]]).Compliance =
      applyVerdicts mv tr.Compliance vr := by
  by_cases h : vr = [] <;>
    simp [foldValidationList, foldOneValidation, setMeta, h]

theorem alookup_aset_self (l : List (String × α)) (k : String) (v : α) :
    alookup (aset l k v) k = some v := by
  rw [alookup_aset]; simp

theorem foldValidationList_status2 (mv : List (String × ValDef)) (m : MetaVals)
    (tr : TypeRec) (vl : List VBlock) :
    (foldValidationList mv m tr vl).status = tr.status :=
  foldValidationList_status mv m _ tr

theorem addEncoding_status (enc : Option String) (tr : TypeRec) :
    (addEncoding enc tr).status = tr.status := by
  cases enc with
  | none => rfl
  | some e => by_cases hc : e ≠ "" ∧ e ∉ tr.encoding <;> simp [addEncoding, hc]

theorem addEncoding_Compliance (enc : Option String) (tr : TypeRec) :
    (addEncoding enc tr).Compliance = tr.Compliance := by
  cases enc with
  | none => rfl
  | some e => by_cases hc : e ≠ "" ∧ e ∉ tr.encoding <;> simp [addEncoding, hc]

theorem fvl_na (mv : List (String × ValDef)) (m : MetaVals) (tr : TypeRec)
    (vl : List VBlock) (ht : ∃ p ∈ vl.flatMap id, p.2 ≠ []) :
    (m.total_validations.truthy = false →
      (foldValidationList mv m tr vl).total_validations = .s "NA") ∧
    (m.ignored_validations.truthy = false →
      (foldValidationList mv m tr vl).ignored_validations = .s "NA") ∧
    (m.failed_validations.truthy = false →
      (foldValidationList mv m tr vl).failed_validations = .s "NA") ∧
    (m.passed_validations.truthy = false →
      (foldValidationList mv m tr vl).passed_validations = .s "NA") ∧
    (m.coverage.truthy = false →
      (foldValidationList mv m tr vl).coverage = .s "NA") := by
  have h := counterFields_fold mv m (vl.flatMap id) tr ht
  simp only [counterFields, counterTargets, Prod.mk.injEq] at h
  obtain ⟨h1, h2, h3, h4, h5⟩ := h
  refine ⟨fun hf => ?_, fun hf => ?_, fun hf => ?_, fun hf => ?_, fun hf => ?_⟩
  · rw [show (foldValidationList mv m tr vl).total_validations =
      jOrNA m.total_validations from h1]
    simp [jOrNA, hf]
  · rw [show (foldValidationList mv m tr vl).ignored_validations =
      jOrNA m.ignored_validations from h2]
    simp [jOrNA, hf]
  · rw [show (foldValidationList mv m tr vl).failed_validations =
      jOrNA m.failed_validations from h3]
    simp [jOrNA, hf]
  · rw [show (foldValidationList mv m tr vl).passed_validations =
      jOrNA m.passed_validations from h4]
    simp [jOrNA, hf]
  · rw [show (foldValidationList mv m tr vl).coverage =
      jOrNA m.coverage from h5]
    simp [jOrNA, hf]

theorem fvl_compliance (mv : List (String × ValDef)) (m : MetaVals)
    (tr : TypeRec) (vn : String) (vr : VerdictMap)
    (hnodup : (vr.map (·.1)).Nodup)
    (hres : ∀ p ∈ vr, p.1 ≠ "description" ∧ p.1 ≠ "key")
    (k : String) (v : JVal) (hkv : (k, v) ∈ vr) :
    clVal (foldValidationList mv m tr [[(vn, vr)]]).Compliance k = some (.j v) ∧
    ((∀ p ∈ vr, clHasKey tr.Compliance p.1 = true) →
      (foldValidationList mv m tr [[(vn, vr)]]).Compliance.length =
        tr.Compliance.length) := by
  rw [foldValidationList_compliance_single]
  exact ⟨clVal_applyVerdicts_mem mv vr hnodup hres k v hkv _,
    fun hall => applyVerdicts_length mv vr _ hall⟩

/-! ## Claim theorems about `update_skeleton_dict` (C5, C9, C10) -/

/-- **C9.** The type-instance status field is last-write-wins, not sticky:
whenever an outcome is folded into an existing `(path, unique type key)`
record, `update_skeleton_dict` unconditionally overwrites that record's
`status` with the outcome's inner `result` value, or with the coarse
PASS/FAIL flag when the inner value is absent — regardless of what the
record's status was before (so a `"FAIL"` is replaced by a later `"PASS"`),
unlike the path-level sticky-failure policy. -/
theorem typeInstanceStatusLastWriteWins (operations : List (String × OpData))
    (sk : List (String × TypeRec)) (m : MetaVals) (status : String)
    (validations type_key : String) (mv : List (String × ValDef))
    (test_name : String) (new_log : Option (String × String))
    (json_result : Option String) (rec0 : TypeRec)
    (h0 : alookup sk type_key = some rec0) :
    ∃ rec2, alookup (update_skeleton_dict operations sk m status validations
        type_key mv test_name new_log json_result) type_key = some rec2 ∧
      rec2.status = json_result.getD status := by
  simp only [update_skeleton_dict, h0]
  cases hvl : alookup ((alookup operations validations).getD ⟨[], none⟩).type
      (stripNumSuffix type_key) with
  | none =>
    exact ⟨_, alookup_aset_self _ _ _, rfl⟩
  | some vl =>
    refine ⟨_, alookup_aset_self _ _ _, ?_⟩
    rw [foldValidationList_status2, addEncoding_status]

/-- A concrete type record whose status is `"FAIL"`, for the C9 witness. -/
def failedRec : TypeRec := { initTypeStructure "Set" with status := "FAIL" }

/-- Concrete metadata values with every slot falsy, for witnesses. -/
def emptyMeta : MetaVals := ⟨"", "", "", .s "", .s "", .s "", .s "", .s ""⟩

/-- Witness for `typeInstanceStatusLastWriteWins`: a record whose status is
`"FAIL"` is updated by a later successful outcome whose inner result is
`"PASS"`, and ends with status `"PASS"`. -/
theorem typeInstanceStatusLastWriteWins_witness :
    (alookup [("ONCE", failedRec)] "ONCE" = some failedRec) ∧
    ∃ rec2, alookup (update_skeleton_dict [] [("ONCE", failedRec)]
        emptyMeta "PASS" "Set" "ONCE" [] "T" none (some "PASS")) "ONCE" =
        some rec2 ∧
      rec2.status = (some "PASS").getD "PASS" :=
  ⟨by decide,
   typeInstanceStatusLastWriteWins [] [("ONCE", failedRec)] emptyMeta "PASS"
     "Set" "ONCE" [] "T" none (some "PASS") failedRec (by decide)⟩

/-- **C10.** When an outcome is folded into a type record together with at
least one non-empty validation-results entry, every numeric counter slot
whose extracted value is Python-falsy (the integer `0`, the empty string —
which is also what a missing field extracts to) is stored as the sentinel
string `"NA"`, so a genuine zero count is indistinguishable from a
never-populated counter. -/
theorem falsyCountersBecomeNA (operations : List (String × OpData))
    (sk : List (String × TypeRec)) (m : MetaVals) (status : String)
    (validations type_key : String) (mv : List (String × ValDef))
    (test_name : String) (new_log : Option (String × String))
    (json_result : Option String) (rec0 : TypeRec) (vl : List VBlock)
    (h0 : alookup sk type_key = some rec0)
    (hvl : alookup ((alookup operations validations).getD ⟨[], none⟩).type
      (stripNumSuffix type_key) = some vl)
    (ht : ∃ p ∈ vl.flatMap id, p.2 ≠ []) :
    ∃ rec2, alookup (update_skeleton_dict operations sk m status validations
        type_key mv test_name new_log json_result) type_key = some rec2 ∧
      (m.total_validations.truthy = false → rec2.total_validations = .s "NA") ∧
      (m.ignored_validations.truthy = false → rec2.ignored_validations = .s "NA") ∧
      (m.failed_validations.truthy = false → rec2.failed_validations = .s "NA") ∧
      (m.passed_validations.truthy = false → rec2.passed_validations = .s "NA") ∧
      (m.coverage.truthy = false → rec2.coverage = .s "NA") := by
  simp only [update_skeleton_dict, h0, hvl]
  exact ⟨_, alookup_aset_self _ _ _, fvl_na mv m _ vl ht⟩

/-- The one-type operation map used in the C5 and C10 witnesses. -/
def opsW : List (String × OpData) :=
  [("Set", ⟨[("ONCE", [[("V", [("V", .s "PASS")])]])], none⟩)]

/-- Metadata values with zero / empty-string counters, for the C10 witness. -/
def zeroMeta : MetaVals := ⟨"", "", "", .i 0, .s "", .i 0, .s "", .i 0⟩

/-- Witness for `falsyCountersBecomeNA`: counters extracted as `0` / `""`
are stored as `"NA"`. -/
theorem falsyCountersBecomeNA_witness :
    (alookup [("ONCE", initTypeStructure "Set")] "ONCE" =
      some (initTypeStructure "Set")) ∧
    (alookup ((alookup opsW "Set").getD ⟨[], none⟩).type
      (stripNumSuffix "ONCE") = some [[("V", [("V", .s "PASS")])]]) ∧
    (∃ p ∈ ([[("V", [("V", .s "PASS")])]] : List VBlock).flatMap id,
      p.2 ≠ []) ∧
    ∃ rec2, alookup (update_skeleton_dict opsW
        [("ONCE", initTypeStructure "Set")] zeroMeta "PASS" "Set" "ONCE" []
        "T" none none) "ONCE" = some rec2 ∧
      (zeroMeta.total_validations.truthy = false →
        rec2.total_validations = .s "NA") ∧
      (zeroMeta.ignored_validations.truthy = false →
        rec2.ignored_validations = .s "NA") ∧
      (zeroMeta.failed_validations.truthy = false →
        rec2.failed_validations = .s "NA") ∧
      (zeroMeta.passed_validations.truthy = false →
        rec2.passed_validations = .s "NA") ∧
      (zeroMeta.coverage.truthy = false → rec2.coverage = .s "NA") :=
  ⟨by decide, by decide, ⟨("V", [("V", .s "PASS")]), by decide, by decide⟩,
   falsyCountersBecomeNA opsW [("ONCE", initTypeStructure "Set")] zeroMeta
     "PASS" "Set" "ONCE" [] "T" none none (initTypeStructure "Set")
     [[("V", [("V", .s "PASS")])]] (by decide) (by decide)
     ⟨("V", [("V", .s "PASS")]), by decide, by decide⟩⟩

/-- **C5.** Compliance key completeness: for every validation key in an
outcome's verdict block (keys distinct and distinct from the entry metadata
field names `description` / `key`), after `update_skeleton_dict` folds the
outcome in, the compliance entry for that key exists and carries exactly the
supplied verdict; and when every folded key already had an entry, the
compliance list's length is unchanged — entries are overwritten in place,
never duplicated. -/
theorem complianceKeyCompleteness (operations : List (String × OpData))
    (sk : List (String × TypeRec)) (m : MetaVals) (status : String)
    (validations type_key : String) (mv : List (String × ValDef))
    (test_name : String) (new_log : Option (String × String))
    (json_result : Option String) (rec0 : TypeRec) (vn : String)
    (vr : VerdictMap)
    (h0 : alookup sk type_key = some rec0)
    (hvl : alookup ((alookup operations validations).getD ⟨[], none⟩).type
      (stripNumSuffix type_key) = some [[(vn, vr)]])
    (hnodup : (vr.map (·.1)).Nodup)
    (hres : ∀ p ∈ vr, p.1 ≠ "description" ∧ p.1 ≠ "key")
    (k : String) (v : JVal) (hkv : (k, v) ∈ vr) :
    ∃ rec2, alookup (update_skeleton_dict operations sk m status validations
        type_key mv test_name new_log json_result) type_key = some rec2 ∧
      clVal rec2.Compliance k = some (.j v) ∧
      ((∀ p ∈ vr, clHasKey rec0.Compliance p.1 = true) →
        rec2.Compliance.length = rec0.Compliance.length) := by
  simp only [update_skeleton_dict, h0, hvl]
  refine ⟨_, alookup_aset_self _ _ _, ?_, ?_⟩
  · exact (fvl_compliance mv m _ vn vr hnodup hres k v hkv).1
  · intro hall
    have e1 : (addEncoding
          ((alookup operations validations).getD ⟨[], none⟩).encoding
          { rec0 with
              full_path := test_name
              new_log := new_log
              status := json_result.getD status }).Compliance =
        rec0.Compliance := by
      rw [addEncoding_Compliance]
    have h2 := (fvl_compliance mv m
      (addEncoding ((alookup operations validations).getD ⟨[], none⟩).encoding
        { rec0 with
            full_path := test_name
            new_log := new_log
            status := json_result.getD status })
      vn vr hnodup hres k v hkv).2
    rw [e1] at h2
    exact h2 hall

/-- A type record seeded with the skeleton entry for key `V`, for the C5
witness. -/
def seededRec : TypeRec :=
  { initTypeStructure "Set" with Compliance := [mkSkelEntry "V" "d" (some "tv")] }

/-- Witness for `complianceKeyCompleteness`: the skeleton-seeded key `V` is
overwritten in place with verdict `PASS`; the list length stays 1. -/
theorem complianceKeyCompleteness_witness :
    (alookup [("ONCE", seededRec)] "ONCE" = some seededRec) ∧
    ∃ rec2, alookup (update_skeleton_dict opsW [("ONCE", seededRec)]
        zeroMeta "PASS" "Set" "ONCE" [] "T" none none) "ONCE" = some rec2 ∧
      clVal rec2.Compliance "V" = some (.j (.s "PASS")) ∧
      ((∀ p ∈ [("V", JVal.s "PASS")],
          clHasKey seededRec.Compliance p.1 = true) →
        rec2.Compliance.length = seededRec.Compliance.length) :=
  ⟨by decide,
   complianceKeyCompleteness opsW [("ONCE", seededRec)] zeroMeta "PASS" "Set"
     "ONCE" [] "T" none none seededRec "V" [("V", .s "PASS")] (by decide)
     (by decide) (by decide) (by decide) "V" (.s "PASS") (by decide)⟩

/-! ## Claim theorem: summary-merge associativity (C7) -/

/-- Merging two all-integer summary dicts is field-wise integer addition. -/
theorem mergeSummary_mk (a b : SummaryRec) :
    mergeSummary (mkSummaryAssoc a) (mkSummaryAssoc b) =
      mkSummaryAssoc (addSummary a b) := rfl

/-- **C7.** Merge associativity on summary counters: for any three
per-document summaries whose counter fields are all integers (the shape the
summarizer produces, `mkSummaryAssoc`), aggregating `[A, B]` and then
merging `C` into the result gives the same totals as aggregating
`[A, B, C]` in one pass, and the binary merge is associative. -/
theorem mergeAssociativity (a b c : SummaryRec) :
    (aggregateSummaries [mkSummaryAssoc a, mkSummaryAssoc b]).map
        (fun ab => mergeSummary ab (mkSummaryAssoc c)) =
      aggregateSummaries
        [mkSummaryAssoc a, mkSummaryAssoc b, mkSummaryAssoc c] ∧
    mergeSummary (mergeSummary (mkSummaryAssoc a) (mkSummaryAssoc b))
        (mkSummaryAssoc c) =
      mergeSummary (mkSummaryAssoc a)
        (mergeSummary (mkSummaryAssoc b) (mkSummaryAssoc c)) := by
  constructor
  · rfl
  · rw [mergeSummary_mk, mergeSummary_mk, mergeSummary_mk, mergeSummary_mk]
    congr 1
    simp [addSummary, Int.add_assoc]

/-! ## Claim theorem: path extraction determinism (C8) -/

theorem splitLe_cons2 (c d : Char) (rest : List Char)
    (h : ¬(c = '<' ∧ d = '-')) :
    splitLe (c :: d :: rest) =
      match splitLe (d :: rest) with
      | [] => [[c]]
      | p :: ps => (c :: p) :: ps := by
  simp [splitLe, h]

theorem splitArrow_cons2 (c d : Char) (rest : List Char)
    (h : ¬(c = '-' ∧ d = '>')) :
    splitArrow (c :: d :: rest) =
      match splitArrow (d :: rest) with
      | [] => [[c]]
      | p :: ps => (c :: p) :: ps := by
  simp [splitArrow, h]

theorem hasLe_cons2 (c d : Char) (rest : List Char) (h : ¬(c = '<' ∧ d = '-')) :
    hasLe (c :: d :: rest) = hasLe (d :: rest) := by
  simp [hasLe, h]

theorem hasArrow_cons2 (c d : Char) (rest : List Char)
    (h : ¬(c = '-' ∧ d = '>')) :
    hasArrow (c :: d :: rest) = hasArrow (d :: rest) := by
  simp [hasArrow, h]

theorem splitLe_of_noLe (w : List Char) (h : hasLe w = false) : splitLe w = [w] := by
  induction w with
  | nil => rfl
  | cons c rest ih =>
    cases rest with
    | nil => rfl
    | cons d rest2 =>
      have hcd : ¬(c = '<' ∧ d = '-') := by
        intro hh
        simp [hasLe, hh] at h
      have h2 : hasLe (d :: rest2) = false := by
        rw [hasLe_cons2 c d rest2 hcd] at h
        exact h
      rw [splitLe_cons2 c d rest2 hcd, ih h2]

theorem splitLe_append (u ys : List Char) (h : hasLe u = false) :
    splitLe (u ++ '<' :: '-' :: ys) = u :: splitLe ys := by
  induction u with
  | nil => simp [splitLe]
  | cons c u' ih =>
    cases u' with
    | nil =>
      have hc : ¬(c = '<' ∧ '<' = '-') := by simp
      rw [List.cons_append, List.nil_append, splitLe_cons2 c '<' ('-' :: ys) hc]
      simp [splitLe]
    | cons d u'' =>
      have hcd : ¬(c = '<' ∧ d = '-') := by
        intro hh
        simp [hasLe, hh] at h
      have h2 : hasLe (d :: u'') = false := by
        rw [hasLe_cons2 c d u'' hcd] at h
        exact h
      have ih2 := ih h2
      rw [List.cons_append] at ih2
      rw [List.cons_append, List.cons_append]
      rw [splitLe_cons2 c d (u'' ++ '<' :: '-' :: ys) hcd, ih2]

theorem splitArrow_of_noArrow (w : List Char) (h : hasArrow w = false) :
    splitArrow w = [w] := by
  induction w with
  | nil => rfl
  | cons c rest ih =>
    cases rest with
    | nil => rfl
    | cons d rest2 =>
      have hcd : ¬(c = '-' ∧ d = '>') := by
        intro hh
        simp [hasArrow, hh] at h
      have h2 : hasArrow (d :: rest2) = false := by
        rw [hasArrow_cons2 c d rest2 hcd] at h
        exact h
      rw [splitArrow_cons2 c d rest2 hcd, ih h2]

theorem splitArrow_append (u ys : List Char) (h : hasArrow u = false) :
    splitArrow (u ++ '-' :: '>' :: ys) = u :: splitArrow ys := by
  induction u with
  | nil => simp [splitArrow]
  | cons c u' ih =>
    cases u' with
    | nil =>
      have hc : ¬(c = '-' ∧ '-' = '>') := by simp
      rw [List.cons_append, List.nil_append, splitArrow_cons2 c '-' ('>' :: ys) hc]
      simp [splitArrow]
    | cons d u'' =>
      have hcd : ¬(c = '-' ∧ d = '>') := by
        intro hh
        simp [hasArrow, hh] at h
      have h2 : hasArrow (d :: u'') = false := by
        rw [hasArrow_cons2 c d u'' hcd] at h
        exact h
      have ih2 := ih h2
      rw [List.cons_append] at ih2
      rw [List.cons_append, List.cons_append]
      rw [splitArrow_cons2 c d (u'' ++ '-' :: '>' :: ys) hcd, ih2]

theorem hasLe_append_mark (u ys : List Char) :
    hasLe (u ++ '<' :: '-' :: ys) = true := by
  induction u with
  | nil => simp [hasLe]
  | cons c u' ih =>
    cases u' with
    | nil => simp [hasLe]
    | cons d u'' =>
      by_cases hcd : c = '<' ∧ d = '-'
      · simp [hasLe, hcd]
      · rw [List.cons_append, List.cons_append,
          hasLe_cons2 c d (u'' ++ '<' :: '-' :: ys) hcd]
        rw [List.cons_append] at ih
        exact ih

theorem hasArrow_append_mark (u ys : List Char) :
    hasArrow (u ++ '-' :: '>' :: ys) = true := by
  induction u with
  | nil => simp [hasArrow]
  | cons c u' ih =>
    cases u' with
    | nil => simp [hasArrow]
    | cons d u'' =>
      by_cases hcd : c = '-' ∧ d = '>'
      · simp [hasArrow, hcd]
      · rw [List.cons_append, List.cons_append,
          hasArrow_cons2 c d (u'' ++ '-' :: '>' :: ys) hcd]
        rw [List.cons_append] at ih
        exact ih

theorem extract_xpath_decomposed (u mid post : List Char)
    (hu : hasLe u = false)
    (hw : hasLe (mid ++ '-' :: '>' :: post) = false)
    (hmid : hasArrow mid = false) :
    extract_xpath (String.mk (u ++ '<' :: '-' :: (mid ++ '-' :: '>' :: post))) =
      String.mk (stripBrackets (trimChars mid)) := by
  have hle : hasLe (u ++ '<' :: '-' :: (mid ++ '-' :: '>' :: post)) = true :=
    hasLe_append_mark _ _
  have harr : hasArrow (u ++ '<' :: '-' :: (mid ++ '-' :: '>' :: post)) = true := by
    have hassoc : u ++ '<' :: '-' :: (mid ++ '-' :: '>' :: post) =
        (u ++ '<' :: '-' :: mid) ++ '-' :: '>' :: post := by
      simp
    rw [hassoc]
    exact hasArrow_append_mark _ _
  unfold extract_xpath
  simp only [hle, harr, Bool.and_self, if_pos]
  rw [splitLe_append _ _ hu, splitLe_of_noLe _ hw]
  simp only [List.getD_cons_succ, List.getD_cons_zero]
  rw [splitArrow_append _ _ hmid]
  simp

/-! ## Claim theorems: sticky failure (C1) -/

theorem fail_amodify (paths : List (String × PathRecord)) (xpath p : String)
    (f : PathRecord → PathRecord)
    (hf : ∀ rec, rec.status.status = "FAIL" → (f rec).status.status = "FAIL")
    (h : (alookup paths p).map (fun rec => rec.status.status) = some "FAIL") :
    (alookup (amodify paths xpath f) p).map (fun rec => rec.status.status) =
      some "FAIL" := by
  rw [alookup_amodify]
  by_cases hp : p = xpath
  · rw [if_pos hp]
    obtain ⟨rec, hrec, hstat⟩ := Option.map_eq_some'.mp h
    rw [hrec]
    simpa using hf rec hstat
  · rw [if_neg hp]
    exact h

theorem fail_stageInit (doc : ResultDoc) (xpath tname p : String) (st : SState)
    (h : (alookup st.paths p).map (fun rec => rec.status.status) = some "FAIL") :
    (alookup (stageInit doc xpath tname st).paths p).map
      (fun rec => rec.status.status) = some "FAIL" := by
  unfold stageInit
  by_cases hpres : (alookup st.paths xpath).isSome
  · simp only [hpres, if_true]
    exact h
  · simp only [hpres, if_false]
    show (alookup (aset st.paths xpath _) p).map _ = _
    rw [alookup_aset]
    by_cases hpx : p = xpath
    · subst hpx
      obtain ⟨rec, hrec, _⟩ := Option.map_eq_some'.mp h
      rw [hrec] at hpres
      simp at hpres
    · rw [if_neg hpx]
      exact h

theorem fail_processType (sch : Schema) (logIdx : List (String × (String × String)))
    (operation : List (String × OpData)) (validations : String) (opd : OpData)
    (type_values : Option String) (curKeys : List String) (m : MetaVals)
    (coarse test_name : String) (json_result : Option String)
    (xpath p : String) (st : SState) (tk : String)
    (h : (alookup st.paths p).map (fun rec => rec.status.status) = some "FAIL") :
    (alookup (processType sch logIdx operation validations opd type_values
        curKeys m coarse test_name json_result xpath st tk).paths p).map
      (fun rec => rec.status.status) = some "FAIL" := by
  unfold processType
  exact fail_amodify st.paths xpath p _ (fun rec hr => hr) h

theorem fail_stageTypes (sch : Schema) (logIdx : List (String × (String × String)))
    (xpath p : String) (r : TestOutcome) (st : SState)
    (h : (alookup st.paths p).map (fun rec => rec.status.status) = some "FAIL") :
    (alookup (stageTypes sch logIdx xpath r st).paths p).map
      (fun rec => rec.status.status) = some "FAIL" := by
  simp only [stageTypes]
  split
  · exact h
  · split
    · exact h
    · exact foldl_preserve
        (fun st => (alookup st.paths p).map (fun rec => rec.status.status) =
          some "FAIL")
        _ (fun a b ha => fail_processType _ _ _ _ _ _ _ _ _ _ _ _ _ a b ha)
        _ st h

theorem fail_stageStatus (doc : ResultDoc) (xpath p : String) (success : Bool)
    (st : SState)
    (h : (alookup st.paths p).map (fun rec => rec.status.status) = some "FAIL") :
    (alookup (stageStatus doc xpath success st).paths p).map
      (fun rec => rec.status.status) = some "FAIL" := by
  unfold stageStatus
  apply fail_amodify _ _ _ _ _ h
  intro rec hr
  by_cases hdev : xpath ∈ doc.deviations <;> simp [hdev, hr]

theorem fail_processOutcome (sch : Schema)
    (logIdx : List (String × (String × String))) (doc : ResultDoc) (p : String)
    (st : SState) (r : TestOutcome)
    (h : (alookup st.paths p).map (fun rec => rec.status.status) = some "FAIL") :
    (alookup (processOutcome sch logIdx doc st r).paths p).map
      (fun rec => rec.status.status) = some "FAIL" := by
  simp only [processOutcome]
  by_cases hxm : xpathFromName r.test_name = ""
  · simp only [hxm, if_pos]
    exact h
  · simp only [hxm, if_neg, if_false]
    exact fail_stageStatus _ _ _ _ _
      (fail_stageTypes _ _ _ _ _ _ (fail_stageInit _ _ _ _ _ h))

/-- **C1 (amended).** Sticky failure holds for the literal status string
`"FAIL"`: once a path's top-level `status.status` reads exactly `"FAIL"`
(no deviation or platform suffix), no later outcome processed by the
summarizer changes it — in particular it never becomes a PASS value.  (The
guard at `generate_html.py` line 493 compares against the exact string
`"FAIL"`, so suffixed failure values such as `"FAIL(D)"` are *not* sticky;
see the counterexample.) -/
theorem stickyFailureLiteral (sch : Schema)
    (logIdx : List (String × (String × String))) (doc : ResultDoc)
    (rs : List TestOutcome) (p : String) (st : SState)
    (h : (alookup st.paths p).map (fun rec => rec.status.status) = some "FAIL") :
    (alookup (rs.foldl (processOutcome sch logIdx doc) st).paths p).map
      (fun rec => rec.status.status) = some "FAIL" :=
  foldl_preserve
    (fun st => (alookup st.paths p).map (fun rec => rec.status.status) =
      some "FAIL")
    _ (fun a b ha => fail_processOutcome sch logIdx doc p a b ha) rs st h

/-! ## Concrete schema and documents for witnesses and counterexamples -/

/-- Minimal schema: operation `Set` with supported type `ONCE`, one supported
group `g` containing one supported validation `V`. -/
def schMinimal : Schema :=
  { gnmi_operations := [("Set", [("ONCE", ⟨"supported", ["g"]⟩)])]
    gnmi_operation_validations := [("g", ⟨"supported", ["V"]⟩)]
    validations := [("V", ⟨"desc V", "V name", "supported"⟩)] }

/-- A log entry carrying one `ONCE` validation block for operation `Set`. -/
def leONCE (succ : Bool) : LogEntry where
  log := "L"
  gnmi_log := "G"
  test_log := "TL"
  total_validations := .i 1
  passed_validations := .i 1
  failed_validations := .i 0
  ignored_validations := .i 0
  coverage := .s "50"
  result := some (if succ then "PASS" else "FAIL")
  validations := [("Set", ⟨[("ONCE", [[("V", [("V", .s "PASS")])]])], some "JSON"⟩)]

/-- An outcome for path `/x` carrying the single type key `ONCE`. -/
def outcomeONCE (succ : Bool) : TestOutcome where
  test_name := "T <- /x -> v"
  success := succ
  results := [leONCE succ]

/-- Three outcomes for `/x`, each with type `ONCE` (the C2 scenario). -/
def docTriple : ResultDoc where
  counters := ⟨1, 1, 0, 0, 1, 1, 0⟩
  platform_support := []
  deviations := []
  results := [outcomeONCE true, outcomeONCE true, outcomeONCE true]

/-- The C2 state just before path finalization. -/
def midTriple : SState :=
  docTriple.results.foldl (processOutcome schMinimal [] docTriple) initSState

/-- An outcome with no inner results list. -/
def plainOutcome (name : String) (succ : Bool) : TestOutcome :=
  { test_name := name, success := succ, results := [] }

/-- A failing then a passing outcome for `/x`, with `/x` in the deviation
list (the C1 counterexample scenario). -/
def docDeviation : ResultDoc where
  counters := ⟨0, 0, 0, 0, 0, 0, 0⟩
  platform_support := []
  deviations := ["/x"]
  results := [plainOutcome "T <- /x -> v" false, plainOutcome "T <- /x -> v" true]

/-- The same two outcomes without any deviation (the C1 witness scenario). -/
def docPlainFP : ResultDoc where
  counters := ⟨0, 0, 0, 0, 0, 0, 0⟩
  platform_support := []
  deviations := []
  results := [plainOutcome "T <- /x -> v" false, plainOutcome "T <- /x -> v" true]

/-- State after processing only the failing outcome of `docPlainFP`. -/
def stFail : SState :=
  [plainOutcome "T <- /x -> v" false].foldl
    (processOutcome schMinimal [] docPlainFP) initSState

/-- One successful outcome whose test name has no `<-`/`->` delimiters
(the C3 scenario). -/
def docNoDelims : ResultDoc where
  counters := ⟨0, 0, 0, 0, 0, 0, 0⟩
  platform_support := []
  deviations := []
  results := [plainOutcome "MyTest" true]

/-- Counterexample to **C1 as stated**: for a deviation path the stored
failure value is `"FAIL(D)"`, which is not the literal `"FAIL"`, so the
sticky guard does not fire and the later successful outcome rewrites the
path's top-level status to `"PASS(D)"` — a suffixed FAIL is changed back to
a PASS value. -/
theorem stickyFailure_counterexample :
    ((alookup ([plainOutcome "T <- /x -> v" false].foldl
        (processOutcome schMinimal [] docDeviation) initSState).paths
      "/x").map (fun rec => rec.status.status) = some "FAIL(D)") ∧
    ((alookup (docDeviation.results.foldl
        (processOutcome schMinimal [] docDeviation) initSState).paths
      "/x").map (fun rec => rec.status.status) = some "PASS(D)") := by
  decide

/-- Witness for `stickyFailureLiteral`: after a plain failing outcome the
status is exactly `"FAIL"`, and the later successful outcome leaves it
`"FAIL"`. -/
theorem stickyFailureLiteral_witness :
    ((alookup stFail.paths "/x").map (fun rec => rec.status.status) =
      some "FAIL") ∧
    ((alookup ([plainOutcome "T <- /x -> v" true].foldl
        (processOutcome schMinimal [] docPlainFP) stFail).paths "/x").map
      (fun rec => rec.status.status) = some "FAIL") :=
  ⟨by decide,
   stickyFailureLiteral schMinimal [] docPlainFP
     [plainOutcome "T <- /x -> v" true] "/x" stFail (by decide)⟩

/-! ## Claim theorems: instance renaming (C2) and unmapped names (C3) -/

/-- Counterexample to **C2 as stated**: the three `ONCE` outcomes for `/x`
produce the instance keys `ONCE`, `ONCE_2`, `ONCE_3` (the N-th occurrence is
suffixed with the counter value N, not N-1), so no key `ONCE_1` ever exists
and the claimed key set `ONCE, ONCE_1, ONCE_2` is wrong, both at the top
level and inside `multiple_data`. -/
theorem instanceRenaming_counterexample :
    ((alookup midTriple.paths "/x").map (fun r => r.types.map (·.1)) =
      some ["ONCE", "ONCE_2", "ONCE_3"]) ∧
    ((alookup midTriple.paths "/x").map (fun r => r.types.map (·.1)) ≠
      some ["ONCE", "ONCE_1", "ONCE_2"]) ∧
    ("ONCE_1" ∉ (((alookup (summarize_test_report schMinimal []
        docTriple).paths "/x").map
      (fun r => r.multiple_data.map (·.1))).getD [])) := by
  decide

/-- **C2 (amended).** For the three-`ONCE` document the summarizer produces
the per-path instance keys `ONCE`, `ONCE_2`, `ONCE_3` in first-seen order,
and path finalization removes them from the top level and regroups them
under `multiple_data` with keys `ONCE_2`, `ONCE_3`, `ONCE` (the first-seen
instance is popped and re-inserted under the bare base name, landing last). -/
theorem instanceRenamingActual :
    ((alookup midTriple.paths "/x").map (fun r => r.types.map (·.1)) =
      some ["ONCE", "ONCE_2", "ONCE_3"]) ∧
    ((alookup (summarize_test_report schMinimal [] docTriple).paths
        "/x").map (fun r => (r.types.map (·.1), r.multiple_data.map (·.1))) =
      some ([], ["ONCE_2", "ONCE_3", "ONCE"])) := by
  decide

/-- **C3.** The failing input for the unmapped-test-name claim: the outcome
named `"MyTest"` contains no `<-`/`->` delimiter pattern, yet the summarizer
does **not** skip it — `re.sub` returns the name unchanged when the pattern
does not match, so the emptiness check at `generate_html.py` line 354 (whose
error message says "does not contain the expected XPath pattern") never
fires for a non-empty name, and the whole name becomes a path entry. -/
theorem unmappedNameNotSkipped :
    (hasLe "MyTest".data = false ∧ hasArrow "MyTest".data = false) ∧
    ((summarize_test_report schMinimal [] docNoDelims).paths.map (·.1) =
      ["MyTest"]) ∧
    ((alookup (summarize_test_report schMinimal [] docNoDelims).paths
      "MyTest").map (fun r => r.status.status) = some "PASS") := by
  decide

end YangGnmi

namespace YangGnmi
/-- **C8.** Path extraction determinism: for raw test names containing
exactly one `<-`/`->` delimited segment (below: no stray `<-` before or
after the real one, no stray `->` inside the segment), `extract_xpath`
depends only on the bracket-stripped, whitespace-trimmed segment, so two
names whose delimited segments differ only in bracketed-predicate content
yield the same resource path. -/
theorem pathExtractionDeterminism (u1 mid1 post1 u2 mid2 post2 : List Char)
    (hu1 : hasLe u1 = false)
    (hw1 : hasLe (mid1 ++ '-' :: '>' :: post1) = false)
    (hmid1 : hasArrow mid1 = false)
    (hu2 : hasLe u2 = false)
    (hw2 : hasLe (mid2 ++ '-' :: '>' :: post2) = false)
    (hmid2 : hasArrow mid2 = false)
    (heq : stripBrackets (trimChars mid1) = stripBrackets (trimChars mid2)) :
    extract_xpath
        (String.mk (u1 ++ '<' :: '-' :: (mid1 ++ '-' :: '>' :: post1))) =
      extract_xpath
        (String.mk (u2 ++ '<' :: '-' :: (mid2 ++ '-' :: '>' :: post2))) := by
  rw [extract_xpath_decomposed u1 mid1 post1 hu1 hw1 hmid1,
      extract_xpath_decomposed u2 mid2 post2 hu2 hw2 hmid2, heq]

/-- Witness for `pathExtractionDeterminism`: the spec's own example pair,
`"Set <- /a/b[x=1]/c -> v1"` and `"Set <- /a/b[x=2]/c -> v2"`, both of which
extract to `/a/b/c`. -/
theorem pathExtractionDeterminism_witness :
    (hasLe "Set ".data = false) ∧
    (hasLe (" /a/b[x=1]/c ".data ++ '-' :: '>' :: " v1".data) = false) ∧
    (hasArrow " /a/b[x=1]/c ".data = false) ∧
    (hasLe (" /a/b[x=2]/c ".data ++ '-' :: '>' :: " v2".data) = false) ∧
    (hasArrow " /a/b[x=2]/c ".data = false) ∧
    (stripBrackets (trimChars " /a/b[x=1]/c ".data) =
      stripBrackets (trimChars " /a/b[x=2]/c ".data)) ∧
    (String.mk ("Set ".data ++ '<' :: '-' ::
        (" /a/b[x=1]/c ".data ++ '-' :: '>' :: " v1".data)) =
      "Set <- /a/b[x=1]/c -> v1") ∧
    (extract_xpath "Set <- /a/b[x=1]/c -> v1" = "/a/b/c") ∧
    extract_xpath (String.mk ("Set ".data ++ '<' :: '-' ::
        (" /a/b[x=1]/c ".data ++ '-' :: '>' :: " v1".data))) =
      extract_xpath (String.mk ("Set ".data ++ '<' :: '-' ::
        (" /a/b[x=2]/c ".data ++ '-' :: '>' :: " v2".data))) :=
  ⟨by decide, by decide, by decide, by decide, by decide, by decide,
   by decide, by decide,
   pathExtractionDeterminism _ _ _ _ _ _ (by decide) (by decide) (by decide)
     (by decide) (by decide) (by decide) (by decide)⟩



/-! ## Claim theorems: hierarchy intermediate nodes (C4) -/

theorem nodeAt_insertPath_na (v : α) :
    ∀ (qs comps : List String) (acc : String) (t : List (String × HNode α)),
      (nodeAt t acc qs).map HNode.dataOf = some .na →
      (nodeAt (insertPath v comps acc t) acc qs).map HNode.dataOf = some .na := by
  intro qs
  induction qs with
  | nil =>
    intro comps acc t h
    simp [nodeAt] at h
  | cons c rest ih =>
    intro comps acc t h
    cases comps with
    | nil => simpa [insertPath] using h
    | cons c2 crest =>
      simp only [insertPath]
      cases rest with
      | nil =>
        simp only [nodeAt] at h ⊢
        cases halk2 : alookup t (joinAcc acc c2) with
        | none =>
          by_cases hk : joinAcc acc c = joinAcc acc c2
          · rw [hk, halk2] at h
            simp at h
          · rw [alookup_aset, if_neg hk]
            exact h
        | some n =>
          by_cases hk : joinAcc acc c = joinAcc acc c2
          · obtain ⟨d0, ch0⟩ := n
            have hn : d0 = NData.na := by
              rw [hk, halk2] at h
              simpa [HNode.dataOf] using h
            rw [alookup_aset, if_pos hk]
            by_cases hcrest : crest = [] <;>
              simp [hcrest, HNode.dataOf, hn]
          · rw [alookup_aset, if_neg hk]
            exact h
      | cons c3 rest2 =>
        simp only [nodeAt] at h ⊢
        cases halk : alookup t (joinAcc acc c) with
        | none =>
          rw [halk] at h
          simp at h
        | some n0 =>
          rw [halk] at h
          cases halk2 : alookup t (joinAcc acc c2) with
          | none =>
            by_cases hk : joinAcc acc c = joinAcc acc c2
            · rw [hk, halk2] at halk
              cases halk
            · rw [alookup_aset, if_neg hk, halk]
              exact h
          | some n =>
            by_cases hk : joinAcc acc c = joinAcc acc c2
            · have hnn : n = n0 := by
                rw [hk, halk2] at halk
                cases halk
                rfl
              subst hnn
              rw [alookup_aset, if_pos hk]
              simp only [HNode.children]
              rw [← hk]
              exact ih crest (joinAcc acc c) n.children h
            · rw [alookup_aset, if_neg hk, halk]
              exact h

/-- **C4 (amended).** Once a node's `_data` slot is the intermediate marker
`"NA"`, no later plain full path (a key without `"->"`) processed in the
same build pass restores a real record there: in particular a full path
terminating exactly at the node leaves its `_data` unchanged — a terminal
visit wins only when it creates the node, it does not overwrite an existing
one (only a `"->"`-key can attach data to an existing node). -/
theorem hierarchyIntermediateStaysNA (rest : List (String × α))
    (qs : List String) (t : List (String × HNode α))
    (hplain : ∀ kv ∈ rest, containsSub kv.1 "->" = false)
    (h : (nodeAt t "" qs).map HNode.dataOf = some .na) :
    (nodeAt (rest.foldl buildStep t) "" qs).map HNode.dataOf = some .na := by
  induction rest generalizing t with
  | nil => exact h
  | cons kv rest2 ih =>
    rw [List.foldl_cons]
    refine ih _ (fun kv2 hk => hplain kv2 (by simp [hk])) ?_
    have harrow : containsSub kv.1 "->" = false := hplain kv (by simp)
    rw [show buildStep t kv = insertPath kv.2 (pathComponents kv.1) "" t by
      simp [buildStep, harrow]]
    exact nodeAt_insertPath_na kv.2 qs _ "" t h

/-- Counterexample to **C4 as stated**: building the tree from
`a/b/c ↦ 1` and then `a/b ↦ 2`, the path `a/b` terminates exactly at the
node that the first key created as intermediate, yet its `_data` stays
`"NA"` instead of being overwritten with the record `2`. -/
theorem hierarchyTerminalOverwrite_counterexample :
    (dataAt (build_hierarchy [("a/b/c", (1 : Nat)), ("a/b", 2)]) ["a", "b"] =
      some .na) ∧
    ((NData.val 2 : NData Nat) ≠ .na) := by
  decide

/-- Witness for `hierarchyIntermediateStaysNA`: the same two keys, with the
insertion of `a/b ↦ 2` applied to the tree already holding `a/b/c ↦ 1`. -/
theorem hierarchyIntermediateStaysNA_witness :
    (∀ kv ∈ [("a/b", (2 : Nat))], containsSub kv.1 "->" = false) ∧
    ((nodeAt (buildStep ([] : List (String × HNode Nat)) ("a/b/c", 1)) ""
      ["a", "b"]).map HNode.dataOf = some .na) ∧
    ((nodeAt ([("a/b", (2 : Nat))].foldl buildStep
        (buildStep [] ("a/b/c", 1))) "" ["a", "b"]).map HNode.dataOf =
      some .na) :=
  ⟨by decide, by decide,
   hierarchyIntermediateStaysNA [("a/b", 2)] ["a", "b"]
     (buildStep [] ("a/b/c", 1)) (by decide) (by decide)⟩

/-! ## Claim theorems: skeleton eligibility chain (C6) -/

/-- The full eligibility chain a compliance entry must satisfy. -/
def eligibleEntryIn (sch : Schema) (type_keys : List String)
    (type_values : Option String) (vij : Option (List String))
    (orig : List (String × TypeDef)) (t : String) (e : CEntry) : Prop :=
  t ∈ type_keys ∧
  ∃ td, (t, td) ∈ orig ∧ lowerStr td.current_status = "supported" ∧
    ∃ gk ∈ td.operation_validations_sequence,
      lowerStr ((alookup sch.gnmi_operation_validations gk).getD
        defaultVGroup).current_status = "supported" ∧
      ∃ vk ∈ ((alookup sch.gnmi_operation_validations gk).getD
          defaultVGroup).validations,
        lowerStr ((alookup sch.validations vk).getD
          defaultValDef).current_status = "supported" ∧
        (∀ l, vij = some l → l ≠ [] → vk ∈ l) ∧
        e = mkSkelEntry vk ((alookup sch.validations vk).getD
          defaultValDef).description type_values

theorem complianceFor_mem (sch : Schema) (type_values : Option String)
    (vij : Option (List String)) (seq : List String) (e : CEntry)
    (he : e ∈ complianceFor sch type_values vij seq) :
    ∃ gk ∈ seq,
      lowerStr ((alookup sch.gnmi_operation_validations gk).getD
        defaultVGroup).current_status = "supported" ∧
      ∃ vk ∈ ((alookup sch.gnmi_operation_validations gk).getD
          defaultVGroup).validations,
        lowerStr ((alookup sch.validations vk).getD
          defaultValDef).current_status = "supported" ∧
        (∀ l, vij = some l → l ≠ [] → vk ∈ l) ∧
        e = mkSkelEntry vk ((alookup sch.validations vk).getD
          defaultValDef).description type_values := by
  simp only [complianceFor, List.mem_flatMap] at he
  obtain ⟨gk, hgk, he2⟩ := he
  refine ⟨gk, hgk, ?_⟩
  by_cases hsup : lowerStr ((alookup sch.gnmi_operation_validations gk).getD
      defaultVGroup).current_status = "supported"
  · refine ⟨hsup, ?_⟩
    rw [if_pos hsup] at he2
    simp only [List.mem_filterMap] at he2
    obtain ⟨vk, hvk, heq⟩ := he2
    by_cases hvsup : lowerStr ((alookup sch.validations vk).getD
        defaultValDef).current_status = "supported"
    · simp only [hvsup, ne_eq, not_true_eq_false, if_false] at heq
      split at heq
      · cases heq
      · rename_i hskip
        refine ⟨vk, hvk, hvsup, ?_, (Option.some.inj heq).symm⟩
        intro l hl hlne
        subst hl
        simp only [vijTruthy, Bool.and_eq_true, decide_eq_true_eq, ne_eq] at hskip
        by_contra hnotin
        exact hskip ⟨by simpa using hlne, by simpa using hnotin⟩
    · simp only [hvsup, ne_eq, not_false_eq_true, if_true] at heq
      cases heq
  · rw [if_neg hsup] at he2
    cases he2

theorem skelEnc_Compliance (enc : Option String) (tr : TypeRec) :
    (skelEnc enc tr).Compliance = tr.Compliance := by
  cases enc with
  | none => rfl
  | some e => by_cases hc : e ≠ "" <;> simp [skelEnc, hc]

theorem skelStep_sound (sch : Schema) (validations : String)
    (type_keys : List String) (encoding_value : Option String)
    (type_values : Option String) (vij : Option (List String))
    (orig : List (String × TypeDef)) (kv : String × TypeDef) (hkv : kv ∈ orig)
    (acc : List (String × TypeRec))
    (hacc : ∀ t rec e, alookup acc t = some rec → e ∈ rec.Compliance →
      eligibleEntryIn sch type_keys type_values vij orig t e) :
    ∀ t rec e, alookup (skelStep sch validations type_keys encoding_value
        type_values vij acc kv) t = some rec → e ∈ rec.Compliance →
      eligibleEntryIn sch type_keys type_values vij orig t e := by
  intro t rec e ht he
  by_cases hmem : kv.1 ∈ type_keys
  · by_cases hsup : lowerStr kv.2.current_status = "supported"
    · simp only [skelStep] at ht
      rw [if_pos hmem, if_neg (not_not_intro hsup)] at ht
      by_cases habs : (alookup acc kv.1).isNone = true
      · rw [if_pos habs] at ht
        rw [alookup_aset] at ht
        by_cases htk : t = kv.1
        · rw [if_pos htk] at ht
          cases ht
          rw [skelEnc_Compliance] at he
          rw [alookup_aset_self] at he
          simp only [Option.getD_some] at he
          rcases List.mem_append.mp he with hl | hr
          · simp [initTypeStructure] at hl
          · obtain ⟨gk, hgk, hrest⟩ := complianceFor_mem _ _ _ _ _ hr
            exact ⟨htk ▸ hmem, kv.2, htk ▸ hkv, hsup, gk, hgk, hrest⟩
        · rw [if_neg htk, alookup_aset, if_neg htk] at ht
          exact hacc t rec e ht he
      · rw [if_neg habs] at ht
        rw [alookup_aset] at ht
        by_cases htk : t = kv.1
        · rw [if_pos htk] at ht
          cases halk : alookup acc kv.1 with
          | none => rw [halk] at habs; simp at habs
          | some r0 =>
            rw [halk] at ht
            cases ht
            rw [skelEnc_Compliance] at he
            simp only [Option.getD_some] at he
            rcases List.mem_append.mp he with hl | hr
            · exact htk ▸ hacc kv.1 r0 e halk hl
            · obtain ⟨gk, hgk, hrest⟩ := complianceFor_mem _ _ _ _ _ hr
              exact ⟨htk ▸ hmem, kv.2, htk ▸ hkv, hsup, gk, hgk, hrest⟩
        · rw [if_neg htk] at ht
          exact hacc t rec e ht he
    · rw [show skelStep sch validations type_keys encoding_value type_values
          vij acc kv = acc by simp [skelStep, hmem, hsup]] at ht
      exact hacc t rec e ht he
  · by_cases hns : kv.2.current_status = "not-supported"
    · rw [show skelStep sch validations type_keys encoding_value type_values
          vij acc kv = acc by simp [skelStep, hmem, hns]] at ht
      exact hacc t rec e ht he
    · rw [show skelStep sch validations type_keys encoding_value type_values
          vij acc kv = aset acc kv.1 (initTypeStructure validations) by
        simp [skelStep, hmem, hns]] at ht
      rw [alookup_aset] at ht
      by_cases htk : t = kv.1
      · rw [if_pos htk] at ht
        cases ht
        simp [initTypeStructure] at he
      · rw [if_neg htk] at ht
        exact hacc t rec e ht he


theorem skelFold_sound (sch : Schema) (validations : String)
    (type_keys : List String) (encoding_value : Option String)
    (type_values : Option String) (vij : Option (List String))
    (orig : List (String × TypeDef)) :
    ∀ (l : List (String × TypeDef)) (acc : List (String × TypeRec)),
      (∀ x ∈ l, x ∈ orig) →
      (∀ t rec e, alookup acc t = some rec → e ∈ rec.Compliance →
        eligibleEntryIn sch type_keys type_values vij orig t e) →
      ∀ t rec e,
        alookup (l.foldl (skelStep sch validations type_keys encoding_value
          type_values vij) acc) t = some rec → e ∈ rec.Compliance →
        eligibleEntryIn sch type_keys type_values vij orig t e := by
  intro l
  induction l with
  | nil => intro acc _ hacc; exact hacc
  | cons kv rest ih =>
    intro acc hsub hacc
    rw [List.foldl_cons]
    exact ih _ (fun x hx => hsub x (by simp [hx]))
      (skelStep_sound sch validations type_keys encoding_value type_values
        vij orig kv (hsub kv (by simp)) acc hacc)

/-- **C6 (amended).** Skeleton eligibility chain: a compliance entry appears
in the Skeleton Builder's output only if its type is requested and marked
supported, its validation group is supported, and its validation definition
is supported, and — when the observed-validation-key set is supplied and
**non-empty** — only if the key is a member of that set.  Passing `None`
*or an empty set* disables the membership filter (Python truthiness on the
set), which the second conjunct records: an empty observed set produces
exactly the same skeleton as passing `None` (the full declared supported
set). -/
theorem skeletonEligibilityChain (sch : Schema) (validations : String)
    (type_keys : List String) (encoding_value : Option String)
    (type_values : Option String) (vij : Option (List String))
    (t : String) (rec : TypeRec) (e : CEntry)
    (ht : alookup (generate_skeleton_dict sch validations type_keys
      encoding_value type_values vij) t = some rec)
    (he : e ∈ rec.Compliance) :
    eligibleEntryIn sch type_keys type_values vij
      ((alookup sch.gnmi_operations validations).getD []) t e ∧
    generate_skeleton_dict sch validations type_keys encoding_value
        type_values (some []) =
      generate_skeleton_dict sch validations type_keys encoding_value
        type_values none := by
  constructor
  · exact skelFold_sound sch validations type_keys encoding_value type_values
      vij _ _ [] (fun x hx => hx) (fun t2 rec2 e2 h2 => by cases h2) t rec e
      ht he
  · rfl

/-- Counterexample to **C6 as stated**: with the observed-validation-key set
supplied as the *empty* set, the skeleton still contains the compliance
entry for `V`, although `V` is not a member of the supplied set — the
membership filter is disabled by Python truthiness instead of filtering
everything out. -/
theorem skeletonEligibility_counterexample :
    ((alookup (generate_skeleton_dict schMinimal "Set" ["ONCE"] none
        (some "tv") (some [])) "ONCE").map (fun r => r.Compliance) =
      some [mkSkelEntry "V" "desc V" (some "tv")]) ∧
    ("V" ∉ ([] : List String)) := by
  decide

/-- Witness for `skeletonEligibilityChain`, at the minimal schema with the
observed set `["V"]`. -/
theorem skeletonEligibilityChain_witness :
    (alookup (generate_skeleton_dict schMinimal "Set" ["ONCE"] none
        (some "tv") (some ["V"])) "ONCE" =
      some { initTypeStructure "Set" with
        Compliance := [mkSkelEntry "V" "desc V" (some "tv")] }) ∧
    ((mkSkelEntry "V" "desc V" (some "tv")) ∈
      ({ initTypeStructure "Set" with
        Compliance := [mkSkelEntry "V" "desc V" (some "tv")] } :
          TypeRec).Compliance) ∧
    (eligibleEntryIn schMinimal ["ONCE"] (some "tv") (some ["V"])
      ((alookup schMinimal.gnmi_operations "Set").getD []) "ONCE"
      (mkSkelEntry "V" "desc V" (some "tv")) ∧
    generate_skeleton_dict schMinimal "Set" ["ONCE"] none (some "tv")
        (some []) =
      generate_skeleton_dict schMinimal "Set" ["ONCE"] none (some "tv")
        none) :=
  ⟨by decide, by decide,
   skeletonEligibilityChain schMinimal "Set" ["ONCE"] none (some "tv")
     (some ["V"]) "ONCE"
     { initTypeStructure "Set" with
       Compliance := [mkSkelEntry "V" "desc V" (some "tv")] }
     (mkSkelEntry "V" "desc V" (some "tv")) (by decide) (by decide)⟩

end YangGnmi
